import Mathlib

/-!
Verification development for the claude-code-runner AG-UI adapter.

This file gives a shallow embedding of the stream translator
(ag_ui_claude_sdk/adapter.py together with handlers.py and utils.py) and of
the session worker (ambient_runner/bridges/claude/session.py), and proves
properties of the embedded definitions.

Modelling conventions:
  * Python JSON values are the inductive `Json`; Python dicts are ordered
    association lists (Python dicts preserve insertion order and have
    unique keys).
  * `json.loads` is a Python standard-library function, not repository
    code; the embedding abstracts it as an explicit parameter
    `jsonLoads : String -> Option Json` (`none` models a raised
    `JSONDecodeError`).  `json.dumps` is modelled by the executable
    `Json.dump` below.
  * `uuid.uuid4()` values are modelled as a fresh-identifier counter
    threaded through the translator state; `Ident.fresh n` is the n-th
    generated id of a run, `Ident.str s` wraps a vendor-supplied string id.
  * Async generators become pure functions from the list of vendor
    messages delivered by the stream to the list of emitted events; an
    exception raised by the stream is an `Option String` (the exception
    text) observed when the loop asks for the next item.
-/

/-- A JSON value as handled by the Python adapter. -/
inductive Json where
  | null : Json
  | bool : Bool → Json
  | num : Int → Json
  | str : String → Json
  | arr : List Json → Json
  | obj : List (String × Json) → Json

/-- First-match association-list lookup (Python `dict.get`). -/
def alookup {β : Type} (k : String) : List (String × β) → Option β
  | [] => none
  | (k2, v) :: rest => if k2 = k then some v else alookup k rest

/-- Python dict merge `\x7b**s, **u\x7d`: the keys of `s` in order, each
overwritten by the value in `u` when present, followed by the keys of `u`
that are absent from `s`, in their order in `u`. -/
def dictMerge (s u : List (String × Json)) : List (String × Json) :=
  s.map (fun kv => (kv.1, (alookup kv.1 u).getD kv.2))
    ++ u.filter (fun kv => (alookup kv.1 s).isNone)

/-- Python truthiness of a JSON value (used for `if input_data.state:`). -/
def Json.truthy : Json → Bool
  | .null => false
  | .bool b => b
  | .num n => n != 0
  | .str s => s ≠ ""
  | .arr xs => !xs.isEmpty
  | .obj kvs => !kvs.isEmpty

/-- Minimal model of the string escaping done by Python `json.dumps`. -/
def escapeChar (c : Char) : String :=
  if c = '"' then "\\\""
  else if c = '\\' then "\\\\"
  else if c = '\n' then "\\n"
  else String.singleton c

/-- Escape a string for JSON output. -/
def escapeStr (s : String) : String :=
  String.join (s.toList.map escapeChar)

mutual
/-- Model of Python `json.dumps` with default separators. -/
def Json.dump : Json → String
  | .null => "null"
  | .bool true => "true"
  | .bool false => "false"
  | .num n => toString n
  | .str s => "\"" ++ escapeStr s ++ "\""
  | .arr xs => "[" ++ Json.dumpList xs ++ "]"
  | .obj kvs => "\x7b" ++ Json.dumpObj kvs ++ "\x7d"

/-- Serialize the elements of a JSON array. -/
def Json.dumpList : List Json → String
  | [] => ""
  | [x] => Json.dump x
  | x :: xs => Json.dump x ++ ", " ++ Json.dumpList xs

/-- Serialize the entries of a JSON object. -/
def Json.dumpObj : List (String × Json) → String
  | [] => ""
  | [(k, v)] => "\"" ++ escapeStr k ++ "\": " ++ Json.dump v
  | (k, v) :: xs => "\"" ++ escapeStr k ++ "\": " ++ Json.dump v ++ ", " ++ Json.dumpObj xs
end

/-- An identifier: either the n-th freshly generated uuid of a run or a
vendor-supplied string id. -/
inductive Ident where
  | fresh : Nat → Ident
  | str : String → Ident
deriving DecidableEq, Repr

/-- An AG-UI tool call entry (`ag_ui.core.ToolCall` with its nested
`FunctionCall`). -/
structure AwToolCall where
  id : String
  name : String
  arguments : String
deriving DecidableEq, Repr

/-- An AG-UI protocol message produced by the run and stored for the
`MESSAGES_SNAPSHOT` event.  `toolNamed` is the dict form produced by the
snapshot enrichment step, which adds the recorded tool display name to a
tool-result message. -/
inductive AwMessage where
  | assistant : Ident → Option String → Option (List AwToolCall) → AwMessage
  | developer : Ident → String → AwMessage
  | system : Ident → String → AwMessage
  | tool : Ident → String → String → AwMessage
  | toolNamed : Ident → String → String → String → AwMessage
deriving DecidableEq, Repr

/-- The id of a produced message (`_get_msg_id`). -/
def AwMessage.mid : AwMessage → Ident
  | .assistant i _ _ => i
  | .developer i _ => i
  | .system i _ => i
  | .tool i _ _ => i
  | .toolNamed i _ _ _ => i

/-- A content block of an input (`RunAgentInput`) message; `text` is
present when the block has a `text` attribute. -/
structure InBlock where
  text : Option String
deriving DecidableEq, Repr

/-- The content of an input message: absent, a plain string, or a list of
content blocks. -/
inductive InContent where
  | none : InContent
  | str : String → InContent
  | blocks : List InBlock → InContent
deriving DecidableEq, Repr

/-- An input message from `RunAgentInput.messages`. -/
structure InMessage where
  role : String
  content : InContent
deriving DecidableEq, Repr

/-- An AG-UI tool definition from `RunAgentInput.tools` (only the name is
relevant to the translator). -/
structure ToolDef where
  name : Option String
deriving DecidableEq, Repr

/-- The AG-UI protocol events emitted by the stream translator.  Run
lifecycle events (run-started / run-finished / run-error) are a separate
type because only `run()` constructs them. -/
inductive Event where
  | textStart : Ident → String → Event
  | textContent : Ident → String → Event
  | textEnd : Ident → Event
  | toolCallStart : String → String → Option Ident → Event
  | toolCallArgs : String → String → Event
  | toolCallEnd : String → Event
  | toolCallResult : String → String → String → Event
  | thinkingStart : Event
  | thinkingTextStart : Event
  | thinkingTextContent : String → Event
  | thinkingTextEnd : Event
  | thinkingEnd : Event
  | stateSnapshot : Json → Event
  | messagesSnapshot : List InMessage → List AwMessage → Event

/-- Events emitted by `ClaudeAgentAdapter.run`: the run lifecycle events
plus the translator events it forwards. -/
inductive RunEvent where
  | started : String → String → RunEvent
  | finished : Option Json → RunEvent
  | errorEv : String → RunEvent
  | ev : Event → RunEvent

/-- `config.STATE_MANAGEMENT_TOOL_NAME`. -/
def STATE_MANAGEMENT_TOOL_NAME : String := "ag_ui_update_state"

/-- `config.STATE_MANAGEMENT_TOOL_FULL_NAME`. -/
def STATE_MANAGEMENT_TOOL_FULL_NAME : String := "mcp__ag_ui__ag_ui_update_state"

/-- The check `name in (STATE_MANAGEMENT_TOOL_NAME,
STATE_MANAGEMENT_TOOL_FULL_NAME)` used at every interception site. -/
def isStateToolName (n : String) : Bool :=
  n = STATE_MANAGEMENT_TOOL_NAME || n = STATE_MANAGEMENT_TOOL_FULL_NAME

/-- Split a character list on (non-overlapping, leftmost-first)
double-underscore separators, like Python `s.split("__")`. -/
def splitDunder (acc : List Char) : List Char → List (List Char)
  | [] => [acc.reverse]
  | '_' :: '_' :: rest => acc.reverse :: splitDunder [] rest
  | c :: rest => splitDunder (c :: acc) rest

/-- Rejoin character-list parts with double-underscore separators, like
Python `"__".join(parts)`. -/
def joinDunder : List (List Char) → List Char
  | [] => []
  | [x] => x
  | x :: xs => x ++ '_' :: '_' :: joinDunder xs

/-- `utils.strip_mcp_prefix`: strip a leading transport namespace
`mcp__servername__` from a tool name. -/
def stripMcp (toolName : String) : String :=
  let cs := toolName.toList
  if List.isPrefixOf "mcp__".toList cs then
    let parts := splitDunder [] cs
    if parts.length ≥ 3 then String.mk (joinDunder (parts.drop 2))
    else toolName
  else toolName

/-- `utils.extract_tool_names`: the names present in the tool
definitions. -/
def extractToolNames (tools : List ToolDef) : List String :=
  tools.filterMap (fun t => t.name)

/-- Text of the first block that has a `text` attribute (the inner loop of
`process_messages`). -/
def firstBlockText : List InBlock → String
  | [] => ""
  | b :: rest =>
    match b.text with
    | some t => t
    | none => firstBlockText rest

/-- `RunAgentInput` as consumed by the adapter (the fields the translator
reads). -/
structure RunInput where
  threadId : String
  runId : String
  messages : List InMessage
  tools : List ToolDef
  state : Option Json

/-- The user-message extraction of `utils.process_messages`: the content
of the last input message, a string directly or the first text block. -/
def extractUserMessage (input : RunInput) : String :=
  match input.messages.getLast? with
  | Option.none => ""
  | Option.some last =>
    match last.content with
    | .none => ""
    | .str s => s
    | .blocks bs => firstBlockText bs

/-- The `event` dict carried by a Claude SDK `StreamEvent`, restricted to
the shapes the translator inspects. -/
inductive StreamEv where
  | messageStart : StreamEv
  | textDelta : String → StreamEv
  | thinkingDelta : String → StreamEv
  | inputJsonDelta : String → StreamEv
  | contentBlockStartThinking : StreamEv
  | contentBlockStartToolUse : Option String → String → StreamEv
  | contentBlockStop : StreamEv
  | messageStop : StreamEv
  | messageDelta : Option String → StreamEv
  | other : StreamEv

/-- A content block of a complete (non-streamed) SDK message. -/
inductive Block where
  | text : String → Block
  | thinking : String → String → Block
  | toolUse : Option String → String → List (String × Json) → Block
  | toolResult : Option String → Option Json → Option Bool → Block

/-- A Claude SDK message as consumed by the translator.  `system` carries
the subtype, the optional `session_id` of its data dict (read by the
worker) and the `message`/`text` entry of its data dict (read by the
adapter); `result` carries the optional result text and an opaque bundle
of the usage/cost metadata the adapter copies verbatim. -/
inductive SdkMsg where
  | streamEvent : StreamEv → SdkMsg
  | assistant : List Block → Option String → SdkMsg
  | user : List Block → Option String → SdkMsg
  | system : String → Option String → String → SdkMsg
  | result : Option String → Json → SdkMsg

/-- The in-progress pending message accumulator of the translator. -/
structure Pending where
  id : Ident
  content : String
  toolCalls : List AwToolCall
deriving DecidableEq, Repr

/-- The per-run local state of `_stream_claude_sdk` together with the
adapter field `self._current_state` and the fresh-uuid counter. -/
structure TransState where
  currentMessageId : Option Ident
  inThinking : Bool
  hasStreamedText : Bool
  curToolId : Option String
  curToolName : Option String
  curToolDisplay : Option String
  accJson : String
  processedToolIds : List String
  toolNameById : List (String × String)
  halt : Bool
  runMessages : List AwMessage
  pendingMsg : Option Pending
  accThinking : String
  curState : Option Json
  lastResult : Option Json
  fresh : Nat

/-- The per-run constants of `_stream_claude_sdk`. -/
structure Config where
  threadId : String
  runId : String
  frontendTools : List String
  inputMessages : List InMessage
  jsonLoads : String → Option Json

/-- Add an element to a set modelled as a duplicate-free list
(`set.add`). -/
def setAdd (l : List String) (x : String) : List String :=
  if l.contains x then l else l ++ [x]

/-- Python dict assignment `d[k] = v`: overwrite or append. -/
def assocSet (l : List (String × String)) (k v : String) : List (String × String) :=
  if (alookup k (l.map (fun kv => (kv.1, kv.2)))).isSome then
    l.map (fun kv => if kv.1 = k then (k, v) else kv)
  else l ++ [(k, v)]

/-- `upsert_message`: replace the first stored message with the same id,
otherwise append. -/
def upsertMessage : List AwMessage → AwMessage → List AwMessage
  | [], m => [m]
  | x :: xs, m => if x.mid = m.mid then m :: xs else x :: upsertMessage xs m

/-- `flush_pending_msg`: move the pending accumulator into the run
message list when it has content or tool calls. -/
def flushPending (s : TransState) : TransState :=
  match s.pendingMsg with
  | Option.none => s
  | Option.some p =>
    if p.content = "" ∧ p.toolCalls = [] then { s with pendingMsg := Option.none }
    else
      { s with
        runMessages := upsertMessage s.runMessages
          (.assistant p.id
            (if p.content = "" then Option.none else Option.some p.content)
            (if p.toolCalls = [] then Option.none else Option.some p.toolCalls)),
        pendingMsg := Option.none }

/-- The `state_updates` extraction of the streaming interception path:
`state_updates.get("state_updates", state_updates)`, re-parsed when it is
a string (`none` models the caught nested `JSONDecodeError`). -/
def resolveUpdates (loads : String → Option Json) (d : List (String × Json)) : Option Json :=
  match alookup "state_updates" d with
  | Option.some (Json.str s) => loads s
  | Option.some v => Option.some v
  | Option.none => Option.some (Json.obj d)

/-- The state produced by applying parsed updates to the current state:
shallow dict merge when both are dicts, otherwise replacement. -/
def applyUpdates (cur : Option Json) (updates : Json) : Json :=
  match cur, updates with
  | Option.some (Json.obj cs), Json.obj u => Json.obj (dictMerge cs u)
  | _, _ => updates

/-- The thinking phase of `content_block_stop`: close an open thinking
block and persist accumulated thinking text as a developer message. -/
def stopThink (s : TransState) : TransState × List Event :=
  if s.inThinking then
    if s.accThinking = "" then
      ({ s with inThinking := false }, [Event.thinkingTextEnd, Event.thinkingEnd])
    else
      ({ s with inThinking := false, accThinking := "",
                runMessages := upsertMessage s.runMessages
                  (.developer (Ident.fresh s.fresh) s.accThinking),
                fresh := s.fresh + 1 },
       [Event.thinkingTextEnd, Event.thinkingEnd])
  else (s, [])

/-- The state-management interception of `content_block_stop`: when the
open tool is the reserved state tool, parse the accumulated JSON, merge
the updates into the current state and emit a state snapshot; any parse
failure (top-level or of a nested `state_updates` string) is caught and
leaves everything unchanged. -/
def stopStateTool (cfg : Config) (s : TransState) : TransState × List Event :=
  if (s.curToolName.map isStateToolName).getD false then
    match cfg.jsonLoads s.accJson with
    | Option.some (Json.obj d) =>
      match resolveUpdates cfg.jsonLoads d with
      | Option.some updates =>
        let newSt := applyUpdates s.curState updates
        ({ s with curState := Option.some newSt }, [Event.stateSnapshot newSt])
      | Option.none => (s, [])
    | _ => (s, [])
  else (s, [])

/-- The push phase of `content_block_stop`: attach the finished call to
the pending message (skipped for the state tool and when there is no
pending message or display name). -/
def stopPush (tid : String) (s : TransState) : TransState :=
  match s.pendingMsg, s.curToolDisplay with
  | Option.some p, Option.some disp =>
    if disp ≠ "" ∧ ¬ (s.curToolName.map isStateToolName).getD false then
      let p2 : Pending := { p with toolCalls := p.toolCalls ++ [⟨tid, disp, s.accJson⟩] }
      { s with pendingMsg := Option.some p2 }
    else s
  | _, _ => s

/-- The tool-closing phase of `content_block_stop` when a tool call is
open: state interception, pending push, then either the frontend halt
(flush, tool-call-end, close open text, set halted, without resetting the
tool state) or the normal reset of the tool state. -/
def stopToolClose (cfg : Config) (tid : String) (s : TransState) : TransState × List Event :=
  let st := stopStateTool cfg s
  let s3 := stopPush tid st.1
  let isFrontend :=
    match s3.curToolDisplay with
    | Option.some d => cfg.frontendTools.contains d
    | Option.none => false
  if isFrontend = true then
    let s4 := flushPending s3
    let textStep : TransState × List Event :=
      match s4.currentMessageId with
      | Option.some mid =>
        if s4.hasStreamedText then
          ({ s4 with currentMessageId := Option.none }, [Event.textEnd mid])
        else (s4, [])
      | Option.none => (s4, [])
    ({ textStep.1 with halt := true },
     st.2 ++ [Event.toolCallEnd tid] ++ textStep.2)
  else
    ({ s3 with curToolId := Option.none, curToolName := Option.none,
               curToolDisplay := Option.none, accJson := "" },
     st.2)

/-- One `StreamEvent` of the chunked path, as handled inside
`_stream_claude_sdk`: returns the updated state and the events yielded. -/
def stepStream (cfg : Config) (s : TransState) : StreamEv → TransState × List Event
  | .messageStart =>
    let mid := Ident.fresh s.fresh
    ({ s with currentMessageId := Option.some mid, hasStreamedText := false,
              pendingMsg := Option.some ⟨mid, "", []⟩, fresh := s.fresh + 1 }, [])
  | .textDelta t =>
    match s.currentMessageId with
    | Option.some mid =>
      if t = "" then (s, [])
      else
        ({ s with hasStreamedText := true,
                  pendingMsg := s.pendingMsg.map (fun p => { p with content := p.content ++ t }) },
         (if s.hasStreamedText then [] else [Event.textStart mid "assistant"])
           ++ [Event.textContent mid t])
    | Option.none => (s, [])
  | .thinkingDelta t =>
    if t = "" then (s, [])
    else ({ s with accThinking := s.accThinking ++ t }, [Event.thinkingTextContent t])
  | .inputJsonDelta pj =>
    match s.curToolId with
    | Option.some tid =>
      if pj = "" then (s, [])
      else ({ s with accJson := s.accJson ++ pj }, [Event.toolCallArgs tid pj])
    | Option.none => (s, [])
  | .contentBlockStartThinking =>
    ({ s with inThinking := true }, [Event.thinkingStart, Event.thinkingTextStart])
  | .contentBlockStartToolUse idOpt name =>
    match idOpt with
    | Option.some tid =>
      let disp := stripMcp name
      ({ s with curToolId := Option.some tid, curToolName := Option.some name,
                curToolDisplay := Option.some disp, accJson := "",
                processedToolIds := setAdd s.processedToolIds tid,
                toolNameById := assocSet s.toolNameById tid disp },
       [Event.toolCallStart tid disp s.currentMessageId])
    | Option.none =>
      ({ s with curToolId := Option.none, curToolName := Option.some name, accJson := "" }, [])
  | .contentBlockStop =>
    let t := stopThink s
    match t.1.curToolId with
    | Option.none => t
    | Option.some tid =>
      let r := stopToolClose cfg tid t.1
      (r.1, t.2 ++ r.2)
  | .messageStop =>
    let s1 := flushPending s
    match s1.currentMessageId with
    | Option.some mid =>
      if s1.hasStreamedText then
        ({ s1 with currentMessageId := Option.none }, [Event.textEnd mid])
      else ({ s1 with currentMessageId := Option.none }, [])
    | Option.none => (s1, [])
  | .messageDelta _ => (s, [])
  | .other => (s, [])

/-- The tool-result content normalisation shared by
`handle_tool_result_block` and `utils.build_agui_tool_message`: extract
the text of a leading text block (re-serialising it when it parses as
JSON), otherwise dump the whole content. -/
def contentToStr (loads : String → Option Json) : Option Json → String
  | Option.none => ""
  | Option.some c =>
    match c with
    | Json.arr (first :: _) =>
      match first with
      | Json.obj d =>
        match alookup "type" d with
        | Option.some (Json.str ty) =>
          if ty = "text" then
            let text :=
              match alookup "text" d with
              | Option.some (Json.str t) => t
              | _ => ""
            match loads text with
            | Option.some v => Json.dump v
            | Option.none => text
          else Json.dump c
        | _ => Json.dump c
      | _ => Json.dump c
    | _ => Json.dump c

/-- `utils.build_agui_assistant_message`: text from the text blocks and
tool calls from the tool-use blocks (the state tool and thinking blocks
are skipped); `none` when nothing user-visible remains. -/
def buildAguiAssistantMessage (blocks : List Block) (mid : Ident) : Option AwMessage :=
  let text := String.join (blocks.filterMap (fun b =>
    match b with
    | .text t => Option.some t
    | _ => Option.none))
  let tcs : List AwToolCall := blocks.filterMap (fun b =>
    match b with
    | .toolUse idOpt name input =>
      if isStateToolName name then Option.none
      else Option.some ⟨idOpt.getD "", stripMcp name, Json.dump (Json.obj input)⟩
    | _ => Option.none)
  if text = "" ∧ tcs = [] then Option.none
  else Option.some (.assistant mid
    (if text = "" then Option.none else Option.some text)
    (if tcs = [] then Option.none else Option.some tcs))

/-- `utils.build_agui_tool_message`. -/
def buildAguiToolMessage (loads : String → Option Json) (tuid : String)
    (content : Option Json) : AwMessage :=
  .tool (Ident.str (tuid ++ "-result")) (contentToStr loads content) tuid

/-- The state produced by the fallback interception in
`handlers.handle_tool_use_block`: the `state_updates` entry of the tool
input (default the empty dict), re-parsed when a string with the empty
dict on parse failure, then merged into / replacing the current state. -/
def fallbackNewState (loads : String → Option Json) (cur : Option Json)
    (input : List (String × Json)) : Json :=
  let upd0 := (alookup "state_updates" input).getD (Json.obj [])
  let upd :=
    match upd0 with
    | Json.str s => (loads s).getD (Json.obj [])
    | v => v
  applyUpdates cur upd

/-- The events yielded by `handlers.handle_tool_use_block` for one
tool-use block: a state snapshot for the reserved state tool, otherwise
tool-call-start (and args when the input dict is non-empty).  Note that
the handler's state merge mutates only a generator-local variable; the
adapter's `self._current_state` receives back the unchanged input state,
so this function returns events only. -/
def handleToolUseBlockEvents (loads : String → Option Json) (tid : String)
    (name : String) (input : List (String × Json)) (parent : Option String)
    (cur : Option Json) : List Event :=
  if isStateToolName name then
    [Event.stateSnapshot (fallbackNewState loads cur input)]
  else
    [Event.toolCallStart tid (stripMcp name) (parent.map Ident.str)]
      ++ (if input.isEmpty then [] else [Event.toolCallArgs tid (Json.dump (Json.obj input))])

/-- One content block of a complete (fallback) SDK message, as handled in
the `for block in message.content` loop of `_stream_claude_sdk`. -/
def stepBlock (cfg : Config) (parent : Option String) (s : TransState) :
    Block → TransState × List Event
  | .text _ => (s, [])
  | .thinking _ _ => (s, [])
  | .toolUse idOpt name input =>
    if (idOpt.map s.processedToolIds.contains).getD false then (s, [])
    else
      let s1 :=
        match idOpt with
        | Option.some tid => { s with toolNameById := assocSet s.toolNameById tid (stripMcp name) }
        | Option.none => s
      let tidAndState : String × TransState :=
        match idOpt with
        | Option.some tid => (tid, s1)
        | Option.none => ("uuid-" ++ Nat.repr s1.fresh, { s1 with fresh := s1.fresh + 1 })
      let tid := tidAndState.1
      let s2 := tidAndState.2
      let evs := handleToolUseBlockEvents cfg.jsonLoads tid name input parent s2.curState
      let s3 :=
        match idOpt with
        | Option.some tid2 => { s2 with processedToolIds := setAdd s2.processedToolIds tid2 }
        | Option.none => s2
      -- `self._current_state = updated_state` reassigns the value that was
      -- passed in (the handler returns it before its generator runs), so the
      -- adapter state is unchanged here.
      (s3, evs)
  | .toolResult tuidOpt content _ =>
    match tuidOpt with
    | Option.some tuid =>
      let msgs := upsertMessage s.runMessages (buildAguiToolMessage cfg.jsonLoads tuid content)
      ({ s with runMessages := msgs },
       [Event.toolCallEnd tuid,
        Event.toolCallResult (tuid ++ "-result") tuid (contentToStr cfg.jsonLoads content)])
    | Option.none => (s, [])

/-- The block loop of the fallback path. -/
def stepBlocks (cfg : Config) (parent : Option String) :
    TransState → List Block → TransState × List Event
  | s, [] => (s, [])
  | s, b :: rest =>
    let r1 := stepBlock cfg parent s b
    let r2 := stepBlocks cfg parent r1.1 rest
    (r2.1, r1.2 ++ r2.2)

/-- A complete `AssistantMessage` on the fallback path: accumulate an
AG-UI assistant message under the streaming id (or a fresh one), then run
the block loop. -/
def stepAssistant (cfg : Config) (s : TransState) (blocks : List Block)
    (parent : Option String) : TransState × List Event :=
  let midAndState : Ident × TransState :=
    match s.currentMessageId with
    | Option.some m => (m, s)
    | Option.none => (Ident.fresh s.fresh, { s with fresh := s.fresh + 1 })
  let s1 :=
    match buildAguiAssistantMessage blocks midAndState.1 with
    | Option.some m => { midAndState.2 with runMessages := upsertMessage midAndState.2.runMessages m }
    | Option.none => midAndState.2
  stepBlocks cfg parent s1 blocks

/-- A `SystemMessage` with a `message`/`text` entry: emit a system text
triple (with its own fresh event id) and store a system message (with a
separate fresh id, generated first). -/
def stepSystem (s : TransState) (msgText : String) : TransState × List Event :=
  if msgText = "" then (s, [])
  else
    let sysId := Ident.fresh s.fresh
    let evId := Ident.fresh (s.fresh + 1)
    ({ s with fresh := s.fresh + 2,
              runMessages := upsertMessage s.runMessages (.system sysId msgText) },
     [Event.textStart evId "system", Event.textContent evId msgText, Event.textEnd evId])

/-- A `ResultMessage`: capture the metadata for the run-finished event
and, when no text was ever streamed and the result carries text,
synthesize a full text triple and store the message. -/
def stepResult (s : TransState) (resTxt : Option String) (meta : Json) :
    TransState × List Event :=
  let s1 := { s with lastResult := Option.some meta }
  match resTxt with
  | Option.some t =>
    if ¬ s1.hasStreamedText ∧ t ≠ "" then
      let rid := Ident.fresh s1.fresh
      ({ s1 with fresh := s1.fresh + 1,
                 runMessages := upsertMessage s1.runMessages
                   (.assistant rid (Option.some t) Option.none) },
       [Event.textStart rid "assistant", Event.textContent rid t, Event.textEnd rid])
    else (s1, [])
  | Option.none => (s1, [])

/-- One vendor message of the translation loop. -/
def stepMsg (cfg : Config) (s : TransState) : SdkMsg → TransState × List Event
  | .streamEvent e => stepStream cfg s e
  | .assistant blocks parent => stepAssistant cfg s blocks parent
  | .user blocks parent => stepBlocks cfg parent s blocks
  | .system _ _ msgText => stepSystem s msgText
  | .result resTxt meta => stepResult s resTxt meta

/-- The `finally` cleanup of `_stream_claude_sdk`: close an open tool
call, then an open thinking block, then an open text message, then flush
the pending message. -/
def cleanupState (s : TransState) : TransState × List Event :=
  let toolStep : TransState × List Event :=
    match s.curToolId with
    | Option.some tid => ({ s with curToolId := Option.none }, [Event.toolCallEnd tid])
    | Option.none => (s, [])
  let s1 := toolStep.1
  let thinkStep : TransState × List Event :=
    if s1.inThinking then
      ({ s1 with inThinking := false }, [Event.thinkingTextEnd, Event.thinkingEnd])
    else (s1, [])
  let s2 := thinkStep.1
  let textEvs : List Event :=
    match s2.currentMessageId with
    | Option.some mid => if s2.hasStreamedText then [Event.textEnd mid] else []
    | Option.none => []
  (flushPending s2, toolStep.2 ++ thinkStep.2 ++ textEvs)

/-- The snapshot enrichment: a tool-result message whose call id was
recorded gains the display name (as a dict with a `name` field). -/
def enrichMessage (names : List (String × String)) : AwMessage → AwMessage
  | .tool i content tcid =>
    if tcid ≠ "" then
      match alookup tcid (names.map (fun kv => (kv.1, kv.2))) with
      | Option.some nm => .toolNamed i content tcid nm
      | Option.none => .tool i content tcid
    else .tool i content tcid
  | m => m

/-- The final `MESSAGES_SNAPSHOT` emission (input messages plus the
enriched run messages), emitted only when the run produced messages. -/
def snapshotEvents (cfg : Config) (s : TransState) : List Event :=
  if s.runMessages.isEmpty then []
  else [Event.messagesSnapshot cfg.inputMessages
          (s.runMessages.map (enrichMessage s.toolNameById))]

/-- Result of the translation loop proper: final state, events in order,
the number of vendor items pulled from the stream, and whether the loop
broke out early because of the halt flag. -/
structure LoopOut where
  state : TransState
  events : List Event
  consumed : Nat
  broke : Bool

/-- The `async for` loop of `_stream_claude_sdk`: each iteration pulls
one item (counting it), breaks if the halt flag is set, and otherwise
processes the item. -/
def procLoop (cfg : Config) : TransState → List SdkMsg → LoopOut
  | s, [] => ⟨s, [], 0, false⟩
  | s, m :: rest =>
    if s.halt then ⟨s, [], 1, true⟩
    else
      let r1 := stepMsg cfg s m
      let r := procLoop cfg r1.1 rest
      ⟨r.state, r1.2 ++ r.events, r.consumed + 1, r.broke⟩

/-- The full result of `_stream_claude_sdk`. -/
structure TransOut where
  events : List Event
  state : TransState
  error : Option String
  consumed : Nat

/-- `_stream_claude_sdk` on a stream that delivers `msgs` and then either
ends (err = none) or raises (err = some e): run the loop, always run the
cleanup, emit the messages snapshot when messages were produced, and
report the captured error for re-raising.  An exception is observed only
if the loop did not break out early. -/
def translateStream (cfg : Config) (s0 : TransState) (msgs : List SdkMsg)
    (err : Option String) : TransOut :=
  let lo := procLoop cfg s0 msgs
  let cl := cleanupState lo.state
  ⟨lo.events ++ cl.2 ++ snapshotEvents cfg cl.1, cl.1,
   if lo.broke then Option.none else err, lo.consumed⟩

/-- The initial translator state of a run (`self._current_state` is set
to `input_data.state`). -/
def initTransState (st : Option Json) : TransState :=
  ⟨Option.none, false, false, Option.none, Option.none, Option.none, "",
   [], [], false, [], Option.none, "", st, Option.none, 0⟩

/-- The translator configuration built by `run()`. -/
def mkConfig (loads : String → Option Json) (input : RunInput) : Config :=
  ⟨input.threadId, input.runId, extractToolNames input.tools, input.messages, loads⟩

/-- `ClaudeAgentAdapter.run`: run-started, the no-user-message early
return, the initial state snapshot, the translated stream, and
run-finished or run-error. -/
def runAdapter (loads : String → Option Json) (input : RunInput)
    (msgs : List SdkMsg) (err : Option String) : List RunEvent :=
  let started := RunEvent.started input.threadId input.runId
  if extractUserMessage input = "" then [started, RunEvent.finished Option.none]
  else
    let initSnap : List RunEvent :=
      match input.state with
      | Option.some st => if st.truthy then [RunEvent.ev (Event.stateSnapshot st)] else []
      | Option.none => []
    let tr := translateStream (mkConfig loads input) (initTransState input.state) msgs err
    started :: (initSnap ++ tr.events.map RunEvent.ev ++
      (match tr.error with
       | Option.some e => [RunEvent.errorEv e]
       | Option.none => [RunEvent.finished tr.state.lastResult]))

/-- State owned by a `SessionWorker` that its loop mutates per turn. -/
structure WorkerState where
  sessionId : Option String

/-- An item of a turn's output queue: a forwarded SDK message, a
`WorkerError` wrapper, or the terminal `None` sentinel. -/
inductive QItem where
  | msg : SdkMsg → QItem
  | err : String → QItem
  | sentinel : QItem

/-- Whether a queue item is the terminal sentinel. -/
def QItem.isSentinel : QItem → Bool
  | .sentinel => true
  | _ => false

/-- The message-forwarding loop of `SessionWorker._run` for one turn:
record the session id of an `init` system message, and forward every
message to the output queue in order. -/
def forwardMsgs : WorkerState → List SdkMsg → WorkerState × List QItem
  | ws, [] => (ws, [])
  | ws, m :: rest =>
    let ws1 :=
      match m with
      | .system subtype sidOpt _ =>
        if subtype = "init" then
          match sidOpt with
          | Option.some sid => { ws with sessionId := Option.some sid }
          | Option.none => ws
        else ws
      | _ => ws
    let r := forwardMsgs ws1 rest
    (r.1, QItem.msg m :: r.2)

/-- One turn of the worker loop (`SessionWorker._run`): the vendor stream
delivers `delivered` and then either ends or raises `err`; on exception a
`WorkerError` wrapper is enqueued, and the `finally` block always
enqueues the terminal sentinel. -/
def workerTurn (ws : WorkerState) (delivered : List SdkMsg) (err : Option String) :
    WorkerState × List QItem :=
  let r := forwardMsgs ws delivered
  (r.1, r.2 ++ (match err with
                | Option.some e => [QItem.err e]
                | Option.none => []) ++ [QItem.sentinel])

/-- The consumer loop of `SessionWorker.query`: yield messages until the
sentinel; a `WorkerError` raises the wrapped exception (returned as
`some`). -/
def queryConsume : List QItem → List SdkMsg × Option String
  | [] => ([], Option.none)
  | QItem.sentinel :: _ => ([], Option.none)
  | QItem.err e :: _ => ([], Option.some e)
  | QItem.msg m :: rest =>
    let r := queryConsume rest
    (m :: r.1, r.2)

/-- Whether an event belongs to the text-message lifecycle of message
`m`. -/
def isMsgEvent (m : Ident) : Event → Bool
  | .textStart i _ => decide (i = m)
  | .textContent i _ => decide (i = m)
  | .textEnd i => decide (i = m)
  | _ => false

/-- The text-message events of message `m` in an event list, in order. -/
def eventsFor (m : Ident) (evs : List Event) : List Event :=
  evs.filter (isMsgEvent m)

/-- The non-empty text deltas of a vendor stream, in order. -/
def deltasOf (l : List SdkMsg) : List String :=
  l.filterMap (fun x =>
    match x with
    | .streamEvent (.textDelta t) => if t = "" then Option.none else Option.some t
    | _ => Option.none)

/-- Events that open a message/tool/thinking lifecycle or carry content:
everything except end events, snapshots and run lifecycle events. -/
def isContentEvent : Event → Bool
  | .textStart _ _ => true
  | .textContent _ _ => true
  | .toolCallStart _ _ _ => true
  | .toolCallArgs _ _ => true
  | .toolCallResult _ _ _ => true
  | .thinkingStart => true
  | .thinkingTextStart => true
  | .thinkingTextContent _ => true
  | _ => false

/-- Whether an event is a tool-call-end. -/
def Event.isToolCallEnd : Event → Bool
  | .toolCallEnd _ => true
  | _ => false

/-- Whether an event is any tool-call lifecycle event
(start/args/end/result). -/
def isToolCallEvent : Event → Bool
  | .toolCallStart _ _ _ => true
  | .toolCallArgs _ _ => true
  | .toolCallEnd _ => true
  | .toolCallResult _ _ _ => true
  | _ => false

/-- Whether a run event is the run-finished event. -/
def RunEvent.isFinished : RunEvent → Bool
  | .finished _ => true
  | _ => false

/-- Vendor messages that leave the open-tool-call state and the halt flag
untouched: everything except a tool-use `content_block_start` and a
`content_block_stop`. -/
def preservesTool : SdkMsg → Bool
  | .streamEvent (.contentBlockStartToolUse _ _) => false
  | .streamEvent .contentBlockStop => false
  | _ => true

/-- Chunked stream items allowed between `message_start` and
`message_stop` in the single-message well-formedness used for the text
lifecycle property: stream chunks that are not message boundaries and do
not start a frontend (declared) tool. -/
def isStreamMid (cfg : Config) : SdkMsg → Bool
  | .streamEvent e =>
    match e with
    | .messageStart => false
    | .messageStop => false
    | .contentBlockStartToolUse _ name => !cfg.frontendTools.contains (stripMcp name)
    | _ => true
  | _ => false

/-! ### Basic lemmas about the loop and the queues -/

theorem forwardMsgs_snd (ws : WorkerState) (l : List SdkMsg) :
    (forwardMsgs ws l).2 = l.map QItem.msg := by
  induction l generalizing ws with
  | nil => rfl
  | cons m rest ih => simp [forwardMsgs, ih]

theorem queryConsume_msgs (l : List SdkMsg) (tail : List QItem) (e : String) :
    queryConsume (l.map QItem.msg ++ QItem.err e :: tail) = (l, Option.some e) := by
  induction l with
  | nil => rfl
  | cons m rest ih => simp [queryConsume, ih]

theorem procLoop_halted (cfg : Config) (s : TransState) (m : SdkMsg) (rest : List SdkMsg)
    (h : s.halt = true) :
    procLoop cfg s (m :: rest) = ⟨s, [], 1, true⟩ := by
  simp [procLoop, h]

theorem procLoop_halted_events (cfg : Config) (s : TransState) (l : List SdkMsg)
    (h : s.halt = true) :
    (procLoop cfg s l).events = [] ∧ (procLoop cfg s l).state = s := by
  cases l with
  | nil => exact ⟨rfl, rfl⟩
  | cons m rest => rw [procLoop_halted cfg s m rest h]; exact ⟨rfl, rfl⟩

theorem procLoop_append (cfg : Config) (l1 l2 : List SdkMsg) (s : TransState)
    (h : (procLoop cfg s l1).broke = false) :
    procLoop cfg s (l1 ++ l2) =
      ⟨(procLoop cfg (procLoop cfg s l1).state l2).state,
       (procLoop cfg s l1).events ++ (procLoop cfg (procLoop cfg s l1).state l2).events,
       (procLoop cfg s l1).consumed + (procLoop cfg (procLoop cfg s l1).state l2).consumed,
       (procLoop cfg (procLoop cfg s l1).state l2).broke⟩ := by
  induction l1 generalizing s with
  | nil => simp [procLoop]
  | cons m rest ih =>
    have hstep : ∀ (l : List SdkMsg), s.halt = false →
        procLoop cfg s (m :: l) =
          ⟨(procLoop cfg (stepMsg cfg s m).1 l).state,
           (stepMsg cfg s m).2 ++ (procLoop cfg (stepMsg cfg s m).1 l).events,
           (procLoop cfg (stepMsg cfg s m).1 l).consumed + 1,
           (procLoop cfg (stepMsg cfg s m).1 l).broke⟩ := by
      intro l hf
      simp [procLoop, hf]
    by_cases hh : s.halt = true
    · rw [procLoop_halted cfg s m rest hh] at h
      simp at h
    · have hf : s.halt = false := by simpa using hh
      have hb : (procLoop cfg (stepMsg cfg s m).1 rest).broke = false := by
        rw [hstep rest hf] at h
        exact h
      rw [List.cons_append, hstep (rest ++ l2) hf, hstep rest hf, ih _ hb]
      simp [List.append_assoc, Nat.add_assoc, Nat.add_comm, Nat.add_left_comm]

theorem upsertMessage_mem (l : List AwMessage) (n x : AwMessage)
    (h : x ∈ upsertMessage l n) : x ∈ l ∨ x = n := by
  induction l with
  | nil => simp [upsertMessage] at h; exact Or.inr h
  | cons y ys ih =>
    simp only [upsertMessage] at h
    by_cases hy : y.mid = n.mid
    · rw [if_pos hy] at h
      rcases List.mem_cons.mp h with h | h
      · exact Or.inr h
      · exact Or.inl (List.mem_cons_of_mem _ h)
    · rw [if_neg hy] at h
      rcases List.mem_cons.mp h with h | h
      · exact Or.inl (by simp [h])
      · rcases ih h with h2 | h2
        · exact Or.inl (List.mem_cons_of_mem _ h2)
        · exact Or.inr h2

theorem upsertMessage_self_mem (l : List AwMessage) (n : AwMessage) :
    n ∈ upsertMessage l n := by
  induction l with
  | nil => simp [upsertMessage]
  | cons y ys ih =>
    simp only [upsertMessage]
    by_cases hy : y.mid = n.mid
    · simp [hy]
    · simp [hy]
      exact Or.inr ih

/-! ### Concrete fixtures used by witnesses and counterexamples -/

/-- A parse function on which every payload is malformed. -/
def noLoads : String → Option Json := fun _ => Option.none

/-- A small concrete run configuration: thread `t1`, run `r1`, one
declared frontend tool `doit`, and the single user input message
`hi`. -/
def cfgT : Config := ⟨"t1", "r1", ["doit"], [⟨"user", InContent.str "hi"⟩], noLoads⟩

/-- The C1 scenario vendor stream. -/
def streamHi : List SdkMsg :=
  [.streamEvent .messageStart,
   .streamEvent (.textDelta "Hi"),
   .streamEvent (.textDelta " there"),
   .streamEvent .messageStop]

/-- A vendor stream whose tool-use block names the declared frontend tool
`doit` through its transport prefix. -/
def streamFrontend : List SdkMsg :=
  [.streamEvent .messageStart,
   .streamEvent (.contentBlockStartToolUse (Option.some "t9") "mcp__ag_ui__doit"),
   .streamEvent (.inputJsonDelta "[]"),
   .streamEvent .contentBlockStop]

/-- The frontend stream followed by two further vendor items. -/
def streamFrontendTail : List SdkMsg :=
  streamFrontend ++ [.streamEvent (.textDelta "x"), .streamEvent (.textDelta "y")]

/-! ### C10 -/

/-- C10: when no non-empty user message can be extracted from the input,
`run()` emits exactly a run-started event followed by a run-finished
event with no result, and nothing else (no state snapshot even when a
state is provided, and no run-error). -/
theorem c10_no_user_message (loads : String → Option Json) (input : RunInput)
    (msgs : List SdkMsg) (err : Option String)
    (h : extractUserMessage input = "") :
    runAdapter loads input msgs err =
      [RunEvent.started input.threadId input.runId, RunEvent.finished Option.none] := by
  unfold runAdapter
  simp [h]

/-- Witness for C10 at an input with an empty messages list and a truthy
initial state. -/
theorem c10_witness :
    extractUserMessage ⟨"t", "r", [], [], Option.some (Json.obj [("a", Json.num 1)])⟩ = "" ∧
    runAdapter noLoads ⟨"t", "r", [], [], Option.some (Json.obj [("a", Json.num 1)])⟩
        [SdkMsg.streamEvent StreamEv.messageStart] Option.none =
      [RunEvent.started "t" "r", RunEvent.finished Option.none] :=
  ⟨rfl, c10_no_user_message noLoads _ _ _ rfl⟩

/-! ### C3 -/

/-- C3: for every turn processed by the worker loop, the output queue
receives the forwarded vendor messages in stream order followed by
exactly one terminal sentinel, which is last; on an exception a single
`WorkerError` wrapper immediately precedes the sentinel. -/
theorem c3_worker_queue_termination (ws : WorkerState) (delivered : List SdkMsg)
    (err : Option String) :
    (workerTurn ws delivered err).2 =
      delivered.map QItem.msg
        ++ (match err with
            | Option.some e => [QItem.err e]
            | Option.none => []) ++ [QItem.sentinel]
    ∧ ((workerTurn ws delivered err).2).countP (fun q => QItem.isSentinel q) = 1
    ∧ ((workerTurn ws delivered err).2).getLast? = Option.some QItem.sentinel := by
  have hq : (workerTurn ws delivered err).2 =
      delivered.map QItem.msg
        ++ (match err with
            | Option.some e => [QItem.err e]
            | Option.none => []) ++ [QItem.sentinel] := by
    simp only [workerTurn]
    rw [forwardMsgs_snd]
  refine ⟨hq, ?_, ?_⟩
  · rw [hq]
    cases err with
    | none => simp [List.countP_append, List.countP_map, QItem.isSentinel, List.countP_cons]
    | some e => simp [List.countP_append, List.countP_map, QItem.isSentinel, List.countP_cons]
  · rw [hq]
    exact List.getLast?_concat _

/-! ### C6 -/

/-- C6 counterexample: the claim says that once halted the loop keeps
consuming all remaining vendor items down to the terminal marker.  On
the concrete stream `streamFrontendTail` (six items, halt after the
fourth) the loop pulls only the fifth item and then breaks, so the sixth
item is never consumed. -/
theorem c6_counterexample :
    (translateStream cfgT (initTransState Option.none) streamFrontendTail Option.none).consumed = 5
    ∧ streamFrontendTail.length = 6
    ∧ (translateStream cfgT (initTransState Option.none) streamFrontendTail Option.none).state.halt
        = true :=
  ⟨rfl, rfl, rfl⟩

/-- C6 amended: once the halted flag is set, the loop pulls exactly one
further vendor item and then breaks out (it does not drain the stream to
its terminal marker), emitting no further events and leaving the state
untouched. -/
theorem c6_amended_halt_breaks (cfg : Config) (s : TransState) (m : SdkMsg)
    (rest : List SdkMsg) (h : s.halt = true) :
    procLoop cfg s (m :: rest) = ⟨s, [], 1, true⟩ :=
  procLoop_halted cfg s m rest h

/-- Witness for the amended C6 at a concrete halted state. -/
theorem c6_amended_witness :
    ({ initTransState Option.none with halt := true } : TransState).halt = true
    ∧ procLoop cfgT { initTransState Option.none with halt := true }
        [SdkMsg.streamEvent (StreamEv.textDelta "x"), SdkMsg.streamEvent (StreamEv.textDelta "y")]
        = ⟨{ initTransState Option.none with halt := true }, [], 1, true⟩ :=
  ⟨rfl, c6_amended_halt_breaks cfgT _ _ _ rfl⟩

/-! ### Phase lemmas for `content_block_stop` and the cleanup -/

theorem stopThink_preserves (s : TransState) :
    (stopThink s).1.curToolId = s.curToolId
    ∧ (stopThink s).1.curToolName = s.curToolName
    ∧ (stopThink s).1.curToolDisplay = s.curToolDisplay
    ∧ (stopThink s).1.curState = s.curState
    ∧ (stopThink s).1.halt = s.halt
    ∧ (stopThink s).1.pendingMsg = s.pendingMsg
    ∧ (stopThink s).1.accJson = s.accJson
    ∧ (stopThink s).1.currentMessageId = s.currentMessageId
    ∧ (stopThink s).1.hasStreamedText = s.hasStreamedText
    ∧ (stopThink s).2.countP isContentEvent = 0 := by
  unfold stopThink
  by_cases h1 : s.inThinking <;> by_cases h2 : s.accThinking = "" <;>
    simp [h1, h2, isContentEvent]

theorem stopStateTool_preserves (cfg : Config) (s : TransState) :
    (stopStateTool cfg s).1.curToolId = s.curToolId
    ∧ (stopStateTool cfg s).1.curToolName = s.curToolName
    ∧ (stopStateTool cfg s).1.curToolDisplay = s.curToolDisplay
    ∧ (stopStateTool cfg s).1.halt = s.halt
    ∧ (stopStateTool cfg s).1.pendingMsg = s.pendingMsg
    ∧ (stopStateTool cfg s).1.accJson = s.accJson
    ∧ (stopStateTool cfg s).1.currentMessageId = s.currentMessageId
    ∧ (stopStateTool cfg s).1.hasStreamedText = s.hasStreamedText
    ∧ (stopStateTool cfg s).1.runMessages = s.runMessages
    ∧ (stopStateTool cfg s).2.countP isContentEvent = 0 := by
  unfold stopStateTool
  split
  · split
    · split
      · simp [isContentEvent]
      · simp
    · simp
  · simp

theorem stopPush_preserves (tid : String) (s : TransState) :
    (stopPush tid s).curToolId = s.curToolId
    ∧ (stopPush tid s).curToolName = s.curToolName
    ∧ (stopPush tid s).curToolDisplay = s.curToolDisplay
    ∧ (stopPush tid s).curState = s.curState
    ∧ (stopPush tid s).halt = s.halt
    ∧ (stopPush tid s).currentMessageId = s.currentMessageId
    ∧ (stopPush tid s).hasStreamedText = s.hasStreamedText
    ∧ (stopPush tid s).runMessages = s.runMessages := by
  unfold stopPush
  split
  · split <;> simp
  · simp

theorem flushPending_preserves (s : TransState) :
    (flushPending s).curToolId = s.curToolId
    ∧ (flushPending s).curToolName = s.curToolName
    ∧ (flushPending s).curToolDisplay = s.curToolDisplay
    ∧ (flushPending s).curState = s.curState
    ∧ (flushPending s).halt = s.halt
    ∧ (flushPending s).currentMessageId = s.currentMessageId
    ∧ (flushPending s).hasStreamedText = s.hasStreamedText
    ∧ (flushPending s).inThinking = s.inThinking := by
  unfold flushPending
  split
  · simp
  · split <;> simp

theorem cleanupState_halt (s : TransState) : (cleanupState s).1.halt = s.halt := by
  have h1 : ∀ s2 : TransState, (flushPending s2).halt = s2.halt :=
    fun s2 => (flushPending_preserves s2).2.2.2.2.1
  rcases hid : s.curToolId with _ | tid <;> by_cases hth : s.inThinking <;>
    simp [cleanupState, hid, hth, h1]

theorem cleanupState_countP (s : TransState) :
    (cleanupState s).2.countP isContentEvent = 0 := by
  rcases hid : s.curToolId with _ | tid <;> by_cases hth : s.inThinking <;>
    rcases hmid : s.currentMessageId with _ | mid <;> by_cases hhs : s.hasStreamedText <;>
      simp [cleanupState, hid, hth, hmid, hhs, isContentEvent,
        List.countP_append, List.countP_cons]

theorem snapshotEvents_countP (cfg : Config) (s : TransState) :
    (snapshotEvents cfg s).countP isContentEvent = 0 := by
  unfold snapshotEvents
  split <;> simp [isContentEvent]

theorem stepStream_stop_eq (cfg : Config) (s : TransState) (c : String)
    (h : (stopThink s).1.curToolId = Option.some c) :
    stepStream cfg s .contentBlockStop =
      ((stopToolClose cfg c (stopThink s).1).1,
       (stopThink s).2 ++ (stopToolClose cfg c (stopThink s).1).2) := by
  simp [stepStream, h]

theorem stopToolClose_frontend (cfg : Config) (tid : String) (s : TransState) (d : String)
    (hd : s.curToolDisplay = Option.some d)
    (hf : cfg.frontendTools.contains d = true) :
    (stopToolClose cfg tid s).1.halt = true
    ∧ Event.toolCallEnd tid ∈ (stopToolClose cfg tid s).2
    ∧ (stopToolClose cfg tid s).2.countP isContentEvent = 0 := by
  have hd2 : (stopPush tid (stopStateTool cfg s).1).curToolDisplay = Option.some d := by
    rw [(stopPush_preserves tid _).2.2.1, (stopStateTool_preserves cfg s).2.2.1, hd]
  have hcount : (stopStateTool cfg s).2.countP isContentEvent = 0 :=
    (stopStateTool_preserves cfg s).2.2.2.2.2.2.2.2.2
  unfold stopToolClose
  simp only [hd2, hf, if_true]
  refine ⟨by trivial, ?_, ?_⟩
  · exact List.mem_append_left _ (List.mem_append_right _ (List.mem_cons_self _ _))
  · rcases hmid : (flushPending (stopPush tid (stopStateTool cfg s).1)).currentMessageId
        with _ | mid <;>
      by_cases hhs : (flushPending (stopPush tid (stopStateTool cfg s).1)).hasStreamedText <;>
        simp [hmid, hhs, isContentEvent, List.countP_append, List.countP_cons, hcount]

/-! ### C7 -/

/-- C7 counterexample: on the concrete frontend-tool stream the
translator's output does not end at the tool-call-end — the last emitted
event is the messages snapshot (preceded by a duplicate cleanup
tool-call-end, since the frontend halt path does not reset the open tool
state) — although the run is indeed marked halted. -/
theorem c7_counterexample :
    ((translateStream cfgT (initTransState Option.none) streamFrontend
        Option.none).events.getLast?).map Event.isToolCallEnd = Option.some false
    ∧ (translateStream cfgT (initTransState Option.none) streamFrontend
        Option.none).state.halt = true :=
  ⟨rfl, rfl⟩

/-- C7 amended: when the closing chunk of a tool call whose display name
matches a declared frontend tool is processed, the output contains a
tool-call-end for that call, the run is marked halted, and from that
chunk on no content events at all (starts, text/thinking/args deltas, or
results) are emitted — but the stream does not literally end at the
tool-call-end: the cleanup re-emits a tool-call-end for the same call and
the messages-snapshot follows. -/
theorem c7_amended_frontend_halt (cfg : Config) (s : TransState) (rest : List SdkMsg)
    (c d : String)
    (hhalt : s.halt = false)
    (hc : s.curToolId = Option.some c)
    (hd : s.curToolDisplay = Option.some d)
    (hf : cfg.frontendTools.contains d = true) :
    (translateStream cfg s (SdkMsg.streamEvent StreamEv.contentBlockStop :: rest)
        Option.none).state.halt = true
    ∧ Event.toolCallEnd c ∈
        (translateStream cfg s (SdkMsg.streamEvent StreamEv.contentBlockStop :: rest)
          Option.none).events
    ∧ ((translateStream cfg s (SdkMsg.streamEvent StreamEv.contentBlockStop :: rest)
          Option.none).events).countP isContentEvent = 0 := by
  have hstop : (stopThink s).1.curToolId = Option.some c := by
    rw [(stopThink_preserves s).1, hc]
  have hdisp : (stopThink s).1.curToolDisplay = Option.some d := by
    rw [(stopThink_preserves s).2.2.1, hd]
  obtain ⟨fh, fmem, fcount⟩ := stopToolClose_frontend cfg c (stopThink s).1 d hdisp hf
  have hstep : stepMsg cfg s (SdkMsg.streamEvent StreamEv.contentBlockStop) =
      ((stopToolClose cfg c (stopThink s).1).1,
       (stopThink s).2 ++ (stopToolClose cfg c (stopThink s).1).2) :=
    stepStream_stop_eq cfg s c hstop
  have hrest := procLoop_halted_events cfg (stopToolClose cfg c (stopThink s).1).1 rest fh
  have hloopE : (procLoop cfg s
      (SdkMsg.streamEvent StreamEv.contentBlockStop :: rest)).events =
      (stopThink s).2 ++ (stopToolClose cfg c (stopThink s).1).2 := by
    simp [procLoop, hhalt, hstep, hrest.1]
  have hloopS : (procLoop cfg s
      (SdkMsg.streamEvent StreamEv.contentBlockStop :: rest)).state =
      (stopToolClose cfg c (stopThink s).1).1 := by
    simp [procLoop, hhalt, hstep, hrest.2]
  have hthinkcount : (stopThink s).2.countP isContentEvent = 0 :=
    (stopThink_preserves s).2.2.2.2.2.2.2.2.2
  refine ⟨?_, ?_, ?_⟩
  · show (cleanupState (procLoop cfg s _).state).1.halt = true
    rw [hloopS, cleanupState_halt, fh]
  · show Event.toolCallEnd c ∈
      (procLoop cfg s _).events ++ (cleanupState (procLoop cfg s _).state).2
        ++ snapshotEvents cfg (cleanupState (procLoop cfg s _).state).1
    rw [hloopE]
    exact List.mem_append_left _ (List.mem_append_left _ (List.mem_append_right _ fmem))
  · show ((procLoop cfg s _).events ++ (cleanupState (procLoop cfg s _).state).2
        ++ snapshotEvents cfg (cleanupState (procLoop cfg s _).state).1).countP
          isContentEvent = 0
    rw [hloopE]
    simp [List.countP_append, hthinkcount, fcount, cleanupState_countP, snapshotEvents_countP]

/-- The concrete translator state with the frontend tool `doit` open. -/
def openToolState : TransState :=
  { initTransState Option.none with
      curToolId := Option.some "t9"
      curToolName := Option.some "mcp__ag_ui__doit"
      curToolDisplay := Option.some "doit" }

/-- Witness for the amended C7 at the concrete open-tool state. -/
theorem c7_amended_witness :
    Event.toolCallEnd "t9" ∈
      (translateStream cfgT openToolState [SdkMsg.streamEvent StreamEv.contentBlockStop]
        Option.none).events
    ∧ (translateStream cfgT openToolState [SdkMsg.streamEvent StreamEv.contentBlockStop]
        Option.none).state.halt = true
    ∧ ((translateStream cfgT openToolState [SdkMsg.streamEvent StreamEv.contentBlockStop]
        Option.none).events).countP isContentEvent = 0 := by
  obtain ⟨h1, h2, h3⟩ :=
    c7_amended_frontend_halt cfgT openToolState [] "t9" "doit" rfl rfl rfl rfl
  exact ⟨h2, h1, h3⟩

/-! ### C5 -/

/-- A chunked stream in which the reserved state-management tool is
called under its full transport-prefixed name. -/
def streamStateTool : List SdkMsg :=
  [.streamEvent .messageStart,
   .streamEvent (.contentBlockStartToolUse (Option.some "t5") STATE_MANAGEMENT_TOOL_FULL_NAME),
   .streamEvent (.inputJsonDelta "bad"),
   .streamEvent .contentBlockStop,
   .streamEvent .messageStop]

/-- C5 counterexample: on the chunked streaming path a call of the
reserved state-management tool does emit a tool-call-start and
tool-call-args events (the `content_block_start` handler emits the start
unconditionally, before any state-tool check). -/
theorem c5_counterexample :
    Event.toolCallStart "t5" "ag_ui_update_state" (Option.some (Ident.fresh 0)) ∈
      (translateStream cfgT (initTransState Option.none) streamStateTool Option.none).events
    ∧ Event.toolCallArgs "t5" "bad" ∈
      (translateStream cfgT (initTransState Option.none) streamStateTool Option.none).events := by
  have h : (translateStream cfgT (initTransState Option.none) streamStateTool
      Option.none).events =
      [Event.toolCallStart "t5" "ag_ui_update_state" (Option.some (Ident.fresh 0)),
       Event.toolCallArgs "t5" "bad"] := rfl
  rw [h]
  exact ⟨List.mem_cons_self _ _, List.mem_cons_of_mem _ (List.mem_cons_self _ _)⟩

theorem stopStateTool_noToolEvents (cfg : Config) (s : TransState) :
    ∀ e ∈ (stopStateTool cfg s).2, isToolCallEvent e = false := by
  unfold stopStateTool
  split
  · split
    · split
      · simp [isToolCallEvent]
      · simp
    · simp
  · simp

theorem stopToolClose_nonfrontend_events (cfg : Config) (tid : String) (s : TransState)
    (hfe : ∀ dsp, s.curToolDisplay = Option.some dsp → cfg.frontendTools.contains dsp = false) :
    (stopToolClose cfg tid s).2 = (stopStateTool cfg s).2 := by
  rcases hdisp : (stopPush tid (stopStateTool cfg s).1).curToolDisplay with _ | dsp
  · unfold stopToolClose
    simp [hdisp]
  · have hsd : s.curToolDisplay = Option.some dsp := by
      rw [← (stopStateTool_preserves cfg s).2.2.1, ← (stopPush_preserves tid _).2.2.1, hdisp]
    have hc : dsp ∉ cfg.frontendTools := by simpa using hfe dsp hsd
    unfold stopToolClose
    simp [hdisp, hc]

/-- C5 amended: state-management tool calls are intercepted only at the
block close and on the whole-message fallback path.  (1) On the fallback
path a state-tool block emits exactly one state-snapshot (computed from
its `state_updates` input) and no tool-call events, and the adapter state
is unchanged (the handler's merged state never propagates back).  (2) On
the chunked streaming path, however, the tool's `content_block_start`
emits a tool-call-start with the stripped display name like any other
tool, (3) its `input_json_delta` chunks emit tool-call-args events, and
(4) only its `content_block_stop` is intercepted: no tool-call event at
all is emitted there for a non-frontend tool. -/
theorem c5_amended_state_tool_events :
    (∀ (cfg : Config) (s : TransState) (tid name : String)
        (input : List (String × Json)) (parent : Option String),
        isStateToolName name = true →
        s.processedToolIds.contains tid = false →
        (stepMsg cfg s (SdkMsg.user [Block.toolUse (Option.some tid) name input] parent)).2 =
          [Event.stateSnapshot (fallbackNewState cfg.jsonLoads s.curState input)]
        ∧ (stepMsg cfg s (SdkMsg.user [Block.toolUse (Option.some tid) name input] parent)).1.curState
            = s.curState)
    ∧ (∀ (cfg : Config) (s : TransState) (tid name : String),
        (stepStream cfg s (StreamEv.contentBlockStartToolUse (Option.some tid) name)).2 =
          [Event.toolCallStart tid (stripMcp name) s.currentMessageId])
    ∧ (∀ (cfg : Config) (s : TransState) (tid pj : String),
        s.curToolId = Option.some tid → pj ≠ "" →
        (stepStream cfg s (StreamEv.inputJsonDelta pj)).2 = [Event.toolCallArgs tid pj])
    ∧ (∀ (cfg : Config) (s : TransState) (tid : String),
        s.inThinking = false →
        s.curToolId = Option.some tid →
        (∀ dsp, s.curToolDisplay = Option.some dsp → cfg.frontendTools.contains dsp = false) →
        ∀ e ∈ (stepStream cfg s StreamEv.contentBlockStop).2, isToolCallEvent e = false) := by
  refine ⟨?_, ?_, ?_, ?_⟩
  · intro cfg s tid name input parent h1 h2
    have h3 : tid ∉ s.processedToolIds := by simpa using h2
    constructor
    · simp [stepMsg, stepBlocks, stepBlock, h3, handleToolUseBlockEvents, h1]
    · simp [stepMsg, stepBlocks, stepBlock, h3, handleToolUseBlockEvents, h1]
  · intro cfg s tid name
    simp [stepStream]
  · intro cfg s tid pj h1 h2
    simp [stepStream, h1, h2]
  · intro cfg s tid hth hc hfe e he
    have hthink : stopThink s = (s, []) := by
      simp [stopThink, hth]
    have hstep : stepStream cfg s StreamEv.contentBlockStop =
        ((stopToolClose cfg tid s).1, [] ++ (stopToolClose cfg tid s).2) := by
      have h1 : (stopThink s).1.curToolId = Option.some tid := by rw [hthink]; exact hc
      have := stepStream_stop_eq cfg s tid h1
      rw [this, hthink]
    rw [hstep] at he
    simp only [List.nil_append] at he
    rw [stopToolClose_nonfrontend_events cfg tid s hfe] at he
    exact stopStateTool_noToolEvents cfg s e he

/-- Witness for the amended C5: the fallback interception at a concrete
state-tool block, and the streaming-path start at the same tool name. -/
theorem c5_amended_witness :
    ((stepMsg cfgT (initTransState (Option.some (Json.str "hello")))
        (SdkMsg.user [Block.toolUse (Option.some "t8") "ag_ui_update_state"
          [("state_updates", Json.str "oops")]] Option.none)).2 =
      [Event.stateSnapshot (fallbackNewState cfgT.jsonLoads
        (initTransState (Option.some (Json.str "hello"))).curState
        [("state_updates", Json.str "oops")])])
    ∧ ((stepStream cfgT (initTransState Option.none)
        (StreamEv.contentBlockStartToolUse (Option.some "t5")
          STATE_MANAGEMENT_TOOL_FULL_NAME)).2 =
      [Event.toolCallStart "t5" "ag_ui_update_state"
        (initTransState Option.none).currentMessageId]) := by
  constructor
  · exact (c5_amended_state_tool_events.1 cfgT
      (initTransState (Option.some (Json.str "hello"))) "t8" "ag_ui_update_state"
      [("state_updates", Json.str "oops")] Option.none rfl rfl).1
  · have h := c5_amended_state_tool_events.2.1 cfgT (initTransState Option.none)
      "t5" STATE_MANAGEMENT_TOOL_FULL_NAME
    rw [h]
    rfl

/-! ### C8 -/

/-- Fallback stream with a malformed (unparseable) `state_updates`
payload for the reserved state tool. -/
def streamBadState : List SdkMsg :=
  [SdkMsg.user [Block.toolUse (Option.some "t8") STATE_MANAGEMENT_TOOL_NAME
     [("state_updates", Json.str "oops")]] Option.none]

/-- C8 counterexample: on the whole-message fallback path a malformed
`state_updates` payload does emit a state-snapshot (here carrying the
empty object, because the previous state `"hello"` is not a dict), even
though the claim says no snapshot is emitted from such a payload. -/
theorem c8_counterexample :
    Event.stateSnapshot (Json.obj []) ∈
      (translateStream cfgT (initTransState (Option.some (Json.str "hello"))) streamBadState
        Option.none).events
    ∧ Json.str "hello" ≠ Json.obj [] := by
  constructor
  · have h : (translateStream cfgT (initTransState (Option.some (Json.str "hello")))
        streamBadState Option.none).events = [Event.stateSnapshot (Json.obj [])] := rfl
    rw [h]
    exact List.mem_cons_self _ _
  · intro h
    exact Json.noConfusion h

theorem stepMsg_user_state_tool (cfg : Config) (s : TransState) (tid name : String)
    (input : List (String × Json)) (parent : Option String)
    (h1 : isStateToolName name = true)
    (h2 : tid ∉ s.processedToolIds) :
    (stepMsg cfg s (SdkMsg.user [Block.toolUse (Option.some tid) name input] parent)).2 =
      [Event.stateSnapshot (fallbackNewState cfg.jsonLoads s.curState input)]
    ∧ (stepMsg cfg s (SdkMsg.user [Block.toolUse (Option.some tid) name input] parent)).1.curState
      = s.curState := by
  constructor <;> simp [stepMsg, stepBlocks, stepBlock, h2, handleToolUseBlockEvents, h1]

theorem dictMerge_nil (cs : List (String × Json)) : dictMerge cs [] = cs := by
  unfold dictMerge
  simp [alookup]

theorem fallbackNewState_malformed (loads : String → Option Json) (cur : Option Json)
    (bad : String) (h : loads bad = Option.none) :
    fallbackNewState loads cur [("state_updates", Json.str bad)] =
      applyUpdates cur (Json.obj []) := by
  simp [fallbackNewState, alookup, h]

theorem stopToolClose_nonfrontend_curState (cfg : Config) (tid : String) (s : TransState)
    (hfe : ∀ dsp, s.curToolDisplay = Option.some dsp → cfg.frontendTools.contains dsp = false) :
    (stopToolClose cfg tid s).1.curState = (stopStateTool cfg s).1.curState := by
  have hpush := (stopPush_preserves tid (stopStateTool cfg s).1).2.2.2.1
  rcases hdisp : (stopPush tid (stopStateTool cfg s).1).curToolDisplay with _ | dsp
  · unfold stopToolClose
    simp [hdisp, hpush]
  · have hsd : s.curToolDisplay = Option.some dsp := by
      rw [← (stopStateTool_preserves cfg s).2.2.1, ← (stopPush_preserves tid _).2.2.1, hdisp]
    have hc : dsp ∉ cfg.frontendTools := by simpa using hfe dsp hsd
    unfold stopToolClose
    simp [hdisp, hc, hpush]

theorem stopStateTool_malformed (cfg : Config) (s : TransState) (n : String)
    (hn : s.curToolName = Option.some n)
    (hstate : isStateToolName n = true)
    (hload : cfg.jsonLoads s.accJson = Option.none) :
    stopStateTool cfg s = (s, []) := by
  unfold stopStateTool
  simp [hn, hstate, hload]

/-- C8 amended: (1) on the chunked streaming path a malformed accumulated
payload for the state tool leaves the current state unchanged, emits no
events at the block close, and the run continues; (2) on the
whole-message fallback path the malformed `state_updates` string is
replaced by an empty update and a state-snapshot IS emitted from the
payload — it carries the previous state when that state is a dict and the
empty object otherwise — while the adapter's tracked state is unchanged
in both cases (the handler's merge result never propagates back). -/
theorem c8_amended_malformed_update :
    (∀ (cfg : Config) (s : TransState) (tid n : String),
        s.inThinking = false →
        s.curToolId = Option.some tid →
        s.curToolName = Option.some n →
        isStateToolName n = true →
        (∀ dsp, s.curToolDisplay = Option.some dsp → cfg.frontendTools.contains dsp = false) →
        cfg.jsonLoads s.accJson = Option.none →
        (stepStream cfg s StreamEv.contentBlockStop).2 = []
        ∧ (stepStream cfg s StreamEv.contentBlockStop).1.curState = s.curState)
    ∧ (∀ (cfg : Config) (s : TransState) (tid bad : String) (parent : Option String),
        tid ∉ s.processedToolIds →
        cfg.jsonLoads bad = Option.none →
        (stepMsg cfg s (SdkMsg.user [Block.toolUse (Option.some tid)
            STATE_MANAGEMENT_TOOL_NAME [("state_updates", Json.str bad)]] parent)).1.curState
          = s.curState
        ∧ (∀ cs, s.curState = Option.some (Json.obj cs) →
            (stepMsg cfg s (SdkMsg.user [Block.toolUse (Option.some tid)
               STATE_MANAGEMENT_TOOL_NAME [("state_updates", Json.str bad)]] parent)).2 =
              [Event.stateSnapshot (Json.obj cs)])
        ∧ ((∀ cs, s.curState ≠ Option.some (Json.obj cs)) →
            (stepMsg cfg s (SdkMsg.user [Block.toolUse (Option.some tid)
               STATE_MANAGEMENT_TOOL_NAME [("state_updates", Json.str bad)]] parent)).2 =
              [Event.stateSnapshot (Json.obj [])])) := by
  constructor
  · intro cfg s tid n hth hc hn hstate hfe hload
    have hthink : stopThink s = (s, []) := by simp [stopThink, hth]
    have h1 : (stopThink s).1.curToolId = Option.some tid := by rw [hthink]; exact hc
    have hstep := stepStream_stop_eq cfg s tid h1
    rw [hthink] at hstep
    have hmal := stopStateTool_malformed cfg s n hn hstate hload
    constructor
    · rw [hstep]
      simp only [List.nil_append]
      rw [stopToolClose_nonfrontend_events cfg tid s hfe, hmal]
    · rw [hstep]
      have := stopToolClose_nonfrontend_curState cfg tid s hfe
      rw [this, hmal]
  · intro cfg s tid bad parent h2 hload
    obtain ⟨hev, hst⟩ := stepMsg_user_state_tool cfg s tid STATE_MANAGEMENT_TOOL_NAME
      [("state_updates", Json.str bad)] parent rfl h2
    refine ⟨hst, ?_, ?_⟩
    · intro cs hcs
      rw [hev, fallbackNewState_malformed cfg.jsonLoads s.curState bad hload, hcs]
      simp [applyUpdates, dictMerge_nil]
    · intro hnd
      rw [hev, fallbackNewState_malformed cfg.jsonLoads s.curState bad hload]
      rcases hcur : s.curState with _ | v
      · simp [applyUpdates]
      · cases v with
        | obj cs => exact absurd hcur (hnd cs)
        | null => simp [applyUpdates]
        | bool b => simp [applyUpdates]
        | num n => simp [applyUpdates]
        | str t => simp [applyUpdates]
        | arr xs => simp [applyUpdates]

/-- The concrete translator state with the state tool open and a
malformed accumulated payload. -/
def stateMalformed : TransState :=
  { initTransState (Option.some (Json.str "hello")) with
      curToolId := Option.some "t5"
      curToolName := Option.some STATE_MANAGEMENT_TOOL_NAME
      curToolDisplay := Option.some "ag_ui_update_state"
      accJson := "bad" }

/-- Witness for the amended C8 on both paths at concrete inputs. -/
theorem c8_amended_witness :
    ((stepStream cfgT stateMalformed StreamEv.contentBlockStop).2 = []
      ∧ (stepStream cfgT stateMalformed StreamEv.contentBlockStop).1.curState =
          Option.some (Json.str "hello"))
    ∧ (stepMsg cfgT (initTransState (Option.some (Json.str "hello")))
        (SdkMsg.user [Block.toolUse (Option.some "t8") STATE_MANAGEMENT_TOOL_NAME
          [("state_updates", Json.str "oops")]] Option.none)).2 =
        [Event.stateSnapshot (Json.obj [])] := by
  constructor
  · exact c8_amended_malformed_update.1 cfgT stateMalformed "t5" STATE_MANAGEMENT_TOOL_NAME
      rfl rfl rfl rfl
      (fun dsp h => (Option.some.inj h) ▸
        (rfl : cfgT.frontendTools.contains "ag_ui_update_state" = false)) rfl
  · exact (c8_amended_malformed_update.2 cfgT (initTransState (Option.some (Json.str "hello")))
      "t8" "oops" Option.none (List.not_mem_nil _) rfl).2.2
      (fun cs h => absurd (Option.some.inj h) (fun h2 => Json.noConfusion h2))

/-! ### C9 -/

theorem alookup_append {β : Type} (k : String) (a b : List (String × β)) :
    alookup k (a ++ b) = (alookup k a).orElse (fun _ => alookup k b) := by
  induction a with
  | nil => simp [alookup, Option.orElse]
  | cons kv rest ih =>
    rcases kv with ⟨k1, v1⟩
    by_cases hk : k1 = k
    · simp [alookup, hk, Option.orElse]
    · simp [alookup, hk, ih]

theorem alookup_mapped (k : String) (u cs : List (String × Json)) :
    alookup k (cs.map (fun kv => (kv.1, (alookup kv.1 u).getD kv.2))) =
      (alookup k cs).map (fun v => (alookup k u).getD v) := by
  induction cs with
  | nil => simp [alookup]
  | cons kv rest ih =>
    rcases kv with ⟨k1, v1⟩
    by_cases hk : k1 = k
    · subst hk
      simp [alookup, ih]
    · simp [alookup, hk, ih]

theorem alookup_filtered (k : String) (u cs : List (String × Json)) :
    alookup k (u.filter (fun kv => (alookup kv.1 cs).isNone)) =
      (if (alookup k cs).isNone = true then alookup k u else Option.none) := by
  induction u with
  | nil => simp [alookup]
  | cons kv rest ih =>
    rcases kv with ⟨k2, v2⟩
    by_cases hk : k2 = k
    · subst hk
      by_cases hcs : (alookup k2 cs).isNone = true
      · simp [List.filter, alookup, hcs, ih]
      · simp [List.filter, alookup, hcs, ih]
    · by_cases hcs : (alookup k2 cs).isNone = true
      · simp [List.filter, alookup, hk, hcs, ih]
      · simp [List.filter, alookup, hk, hcs, ih]

theorem alookup_dictMerge (cs u : List (String × Json)) (k : String) :
    alookup k (dictMerge cs u) = (alookup k u).orElse (fun _ => alookup k cs) := by
  unfold dictMerge
  rw [alookup_append, alookup_mapped, alookup_filtered]
  rcases hcs : alookup k cs with _ | v
  · rcases hu : alookup k u with _ | w <;> simp [Option.orElse, hcs, hu]
  · rcases hu : alookup k u with _ | w <;> simp [Option.orElse, hcs, hu]

theorem stopStateTool_applied (cfg : Config) (s : TransState) (n : String)
    (d : List (String × Json)) (updates : Json)
    (hn : s.curToolName = Option.some n)
    (hstate : isStateToolName n = true)
    (hload : cfg.jsonLoads s.accJson = Option.some (Json.obj d))
    (hres : resolveUpdates cfg.jsonLoads d = Option.some updates) :
    stopStateTool cfg s =
      ({ s with curState := Option.some (applyUpdates s.curState updates) },
       [Event.stateSnapshot (applyUpdates s.curState updates)]) := by
  unfold stopStateTool
  simp [hn, hstate, hload, hres]

theorem stopPush_state_tool (tid : String) (s : TransState)
    (h : (s.curToolName.map isStateToolName).getD false = true) :
    stopPush tid s = s := by
  unfold stopPush
  split
  · simp [h]
  · rfl

theorem stopToolClose_nonfrontend_pending (cfg : Config) (tid : String) (s : TransState)
    (hfe : ∀ dsp, s.curToolDisplay = Option.some dsp → cfg.frontendTools.contains dsp = false) :
    (stopToolClose cfg tid s).1.pendingMsg =
      (stopPush tid (stopStateTool cfg s).1).pendingMsg := by
  rcases hdisp : (stopPush tid (stopStateTool cfg s).1).curToolDisplay with _ | dsp
  · unfold stopToolClose
    simp [hdisp]
  · have hsd : s.curToolDisplay = Option.some dsp := by
      rw [← (stopStateTool_preserves cfg s).2.2.1, ← (stopPush_preserves tid _).2.2.1, hdisp]
    have hnc : dsp ∉ cfg.frontendTools := by simpa using hfe dsp hsd
    unfold stopToolClose
    simp [hdisp, hnc]

/-- C9: when the accumulated JSON of a state-management tool call
resolves to a dict of updates and the current shared state is a dict, the
new state is the shallow merge (update keys overwrite, all other previous
keys retained), a single state-snapshot carrying exactly the merged state
is emitted at the block close — no tool-call event and in particular no
tool-result — and the call is not recorded on the pending message. -/
theorem c9_state_shallow_merge (cfg : Config) (s : TransState) (tid n : String)
    (d u cs : List (String × Json))
    (hth : s.inThinking = false)
    (hc : s.curToolId = Option.some tid)
    (hn : s.curToolName = Option.some n)
    (hstate : isStateToolName n = true)
    (hload : cfg.jsonLoads s.accJson = Option.some (Json.obj d))
    (hres : resolveUpdates cfg.jsonLoads d = Option.some (Json.obj u))
    (hcur : s.curState = Option.some (Json.obj cs))
    (hfe : ∀ dsp, s.curToolDisplay = Option.some dsp → cfg.frontendTools.contains dsp = false) :
    (stepStream cfg s StreamEv.contentBlockStop).2 =
      [Event.stateSnapshot (Json.obj (dictMerge cs u))]
    ∧ (stepStream cfg s StreamEv.contentBlockStop).1.curState =
      Option.some (Json.obj (dictMerge cs u))
    ∧ (stepStream cfg s StreamEv.contentBlockStop).1.pendingMsg = s.pendingMsg
    ∧ (∀ k, alookup k (dictMerge cs u) = (alookup k u).orElse (fun _ => alookup k cs)) := by
  have happ : applyUpdates s.curState (Json.obj u) = Json.obj (dictMerge cs u) := by
    rw [hcur]
    rfl
  have hthink : stopThink s = (s, []) := by simp [stopThink, hth]
  have h1 : (stopThink s).1.curToolId = Option.some tid := by rw [hthink]; exact hc
  have hstep := stepStream_stop_eq cfg s tid h1
  rw [hthink] at hstep
  have hst := stopStateTool_applied cfg s n d (Json.obj u) hn hstate hload hres
  refine ⟨?_, ?_, ?_, fun k => alookup_dictMerge cs u k⟩
  · rw [hstep]
    simp only [List.nil_append]
    rw [stopToolClose_nonfrontend_events cfg tid s hfe, hst, happ]
  · rw [hstep]
    rw [stopToolClose_nonfrontend_curState cfg tid s hfe, hst, happ]
  · rw [hstep]
    have hpp : stopPush tid (stopStateTool cfg s).1 = (stopStateTool cfg s).1 := by
      apply stopPush_state_tool
      rw [(stopStateTool_preserves cfg s).2.1, hn]
      simpa using hstate
    show (stopToolClose cfg tid s).1.pendingMsg = s.pendingMsg
    rw [stopToolClose_nonfrontend_pending cfg tid s hfe, hpp,
        (stopStateTool_preserves cfg s).2.2.2.2.1]

/-- Parse function used by the C9 witness: payload `P` parses to the
update dict. -/
def loadsC9 : String → Option Json := fun s =>
  if s = "P" then Option.some (Json.obj [("b", Json.num 3), ("c", Json.num 4)]) else Option.none

/-- C9 witness configuration (no frontend tools). -/
def cfgC9 : Config := ⟨"t1", "r1", [], [], loadsC9⟩

/-- C9 witness state: state tool open over current state
`(a: 1, b: 2)` with accumulated payload `P`. -/
def stateC9 : TransState :=
  { initTransState (Option.some (Json.obj [("a", Json.num 1), ("b", Json.num 2)])) with
      curToolId := Option.some "t5"
      curToolName := Option.some STATE_MANAGEMENT_TOOL_NAME
      curToolDisplay := Option.some "ag_ui_update_state"
      accJson := "P" }

/-- Witness for C9 at concrete dicts: merging `(b: 3, c: 4)` into
`(a: 1, b: 2)` yields `(a: 1, b: 3, c: 4)` and exactly that snapshot is
emitted. -/
theorem c9_witness :
    (stepStream cfgC9 stateC9 StreamEv.contentBlockStop).2 =
      [Event.stateSnapshot (Json.obj (dictMerge [("a", Json.num 1), ("b", Json.num 2)]
        [("b", Json.num 3), ("c", Json.num 4)]))]
    ∧ dictMerge [("a", Json.num 1), ("b", Json.num 2)] [("b", Json.num 3), ("c", Json.num 4)] =
        [("a", Json.num 1), ("b", Json.num 3), ("c", Json.num 4)] := by
  constructor
  · exact (c9_state_shallow_merge cfgC9 stateC9 "t5" STATE_MANAGEMENT_TOOL_NAME
      [("b", Json.num 3), ("c", Json.num 4)] [("b", Json.num 3), ("c", Json.num 4)]
      [("a", Json.num 1), ("b", Json.num 2)]
      rfl rfl rfl rfl rfl rfl rfl (fun dsp h => rfl)).1
  · rfl

/-! ### C2 -/

theorem procLoop_cons (cfg : Config) (s : TransState) (m : SdkMsg) (l : List SdkMsg)
    (hf : s.halt = false) :
    procLoop cfg s (m :: l) =
      ⟨(procLoop cfg (stepMsg cfg s m).1 l).state,
       (stepMsg cfg s m).2 ++ (procLoop cfg (stepMsg cfg s m).1 l).events,
       (procLoop cfg (stepMsg cfg s m).1 l).consumed + 1,
       (procLoop cfg (stepMsg cfg s m).1 l).broke⟩ := by
  simp [procLoop, hf]

theorem stepBlock_tool_halt (cfg : Config) (parent : Option String) (s : TransState)
    (b : Block) :
    (stepBlock cfg parent s b).1.curToolId = s.curToolId
    ∧ (stepBlock cfg parent s b).1.halt = s.halt := by
  cases b with
  | text t => exact ⟨rfl, rfl⟩
  | thinking t g => exact ⟨rfl, rfl⟩
  | toolUse idOpt name input =>
    rcases idOpt with _ | tid
    · simp [stepBlock]
    · by_cases hp : tid ∈ s.processedToolIds <;> simp [stepBlock, hp]
  | toolResult tuid content isErr =>
    rcases tuid with _ | t <;> simp [stepBlock]

theorem stepBlocks_tool_halt (cfg : Config) (parent : Option String) :
    ∀ (bs : List Block) (s : TransState),
    (stepBlocks cfg parent s bs).1.curToolId = s.curToolId
    ∧ (stepBlocks cfg parent s bs).1.halt = s.halt := by
  intro bs
  induction bs with
  | nil => intro s; exact ⟨rfl, rfl⟩
  | cons b rest ih =>
    intro s
    have h1 := stepBlock_tool_halt cfg parent s b
    have h2 := ih (stepBlock cfg parent s b).1
    simp only [stepBlocks]
    exact ⟨h2.1.trans h1.1, h2.2.trans h1.2⟩

theorem stepAssistant_tool_halt (cfg : Config) (s : TransState) (blocks : List Block)
    (parent : Option String) :
    (stepAssistant cfg s blocks parent).1.curToolId = s.curToolId
    ∧ (stepAssistant cfg s blocks parent).1.halt = s.halt := by
  unfold stepAssistant
  rcases hm : s.currentMessageId with _ | mid <;>
    simp only [hm] <;>
      rcases hb : buildAguiAssistantMessage blocks _ with _ | msg <;>
        simp only [hb] <;>
          exact ⟨((stepBlocks_tool_halt cfg parent blocks _).1).trans rfl,
                 ((stepBlocks_tool_halt cfg parent blocks _).2).trans rfl⟩

theorem stepMsg_preserves_tool (cfg : Config) (s : TransState) (m : SdkMsg)
    (h : preservesTool m = true) :
    (stepMsg cfg s m).1.curToolId = s.curToolId ∧ (stepMsg cfg s m).1.halt = s.halt := by
  cases m with
  | streamEvent e =>
    cases e with
    | messageStart => exact ⟨rfl, rfl⟩
    | textDelta t =>
      rcases hm : s.currentMessageId with _ | mid <;> by_cases ht : t = "" <;>
        simp [stepMsg, stepStream, hm, ht]
    | thinkingDelta t =>
      by_cases ht : t = "" <;> simp [stepMsg, stepStream, ht]
    | inputJsonDelta pj =>
      rcases hc : s.curToolId with _ | tid <;> by_cases hp : pj = "" <;>
        simp [stepMsg, stepStream, hc, hp]
    | contentBlockStartThinking => exact ⟨rfl, rfl⟩
    | contentBlockStartToolUse idOpt name => simp [preservesTool] at h
    | contentBlockStop => simp [preservesTool] at h
    | messageStop =>
      have hf := flushPending_preserves s
      rcases hm : (flushPending s).currentMessageId with _ | mid <;>
        by_cases hh : (flushPending s).hasStreamedText <;>
          simp [stepMsg, stepStream, hm, hh, hf.1, hf.2.2.2.2.1]
    | messageDelta r => exact ⟨rfl, rfl⟩
    | other => exact ⟨rfl, rfl⟩
  | assistant blocks parent => exact stepAssistant_tool_halt cfg s blocks parent
  | user blocks parent => exact stepBlocks_tool_halt cfg parent blocks s
  | system st sid txt =>
    by_cases ht : txt = "" <;> simp [stepMsg, stepSystem, ht]
  | result r meta =>
    rcases r with _ | t
    · exact ⟨rfl, rfl⟩
    · simp only [stepMsg, stepResult]
      split <;> exact ⟨rfl, rfl⟩

theorem procLoop_preserves_tool (cfg : Config) :
    ∀ (l : List SdkMsg) (s : TransState) (c : String),
    s.halt = false → s.curToolId = Option.some c →
    (∀ m ∈ l, preservesTool m = true) →
    (procLoop cfg s l).state.curToolId = Option.some c
    ∧ (procLoop cfg s l).state.halt = false
    ∧ (procLoop cfg s l).broke = false := by
  intro l
  induction l with
  | nil => intro s c h1 h2 h3; exact ⟨h2, h1, rfl⟩
  | cons m rest ih =>
    intro s c h1 h2 h3
    have hm := h3 m (List.mem_cons_self _ _)
    have hp := stepMsg_preserves_tool cfg s m hm
    have hrec := ih (stepMsg cfg s m).1 c (hp.2.trans h1) (hp.1.trans h2)
      (fun x hx => h3 x (List.mem_cons_of_mem _ hx))
    rw [procLoop_cons cfg s m rest h1]
    exact hrec

theorem cleanupState_toolEnd (s : TransState) (c : String)
    (h : s.curToolId = Option.some c) :
    Event.toolCallEnd c ∈ (cleanupState s).2 := by
  unfold cleanupState
  simp [h]

theorem stepStream_toolStart (cfg : Config) (s : TransState) (tid name : String) :
    (stepStream cfg s (StreamEv.contentBlockStartToolUse (Option.some tid) name)).1.curToolId
        = Option.some tid
    ∧ (stepStream cfg s (StreamEv.contentBlockStartToolUse (Option.some tid) name)).1.halt
        = s.halt
    ∧ (stepStream cfg s (StreamEv.contentBlockStartToolUse (Option.some tid) name)).2
        = [Event.toolCallStart tid (stripMcp name) s.currentMessageId] :=
  ⟨rfl, rfl, rfl⟩

/-- C2: for every run whose stream is cut off (it ends, or raises) after
the `content_block_start` of a tool call and before that call's closing
`content_block_stop`, the emitted event sequence still contains the
tool-call-start and a matching tool-call-end for that call: the cleanup
block that runs on every exit closes the open tool call first. -/
theorem c2_interrupted_tool_call_closed (cfg : Config) (st : Option Json)
    (pre mid : List SdkMsg) (c name : String) (err : Option String)
    (h1 : (procLoop cfg (initTransState st) pre).broke = false)
    (h2 : (procLoop cfg (initTransState st) pre).state.halt = false)
    (h3 : ∀ m ∈ mid, preservesTool m = true) :
    Event.toolCallStart c (stripMcp name)
        (procLoop cfg (initTransState st) pre).state.currentMessageId ∈
      (translateStream cfg (initTransState st)
        (pre ++ SdkMsg.streamEvent (StreamEv.contentBlockStartToolUse (Option.some c) name)
           :: mid) err).events
    ∧ Event.toolCallEnd c ∈
      (translateStream cfg (initTransState st)
        (pre ++ SdkMsg.streamEvent (StreamEv.contentBlockStartToolUse (Option.some c) name)
           :: mid) err).events := by
  have hA := procLoop_append cfg pre
    (SdkMsg.streamEvent (StreamEv.contentBlockStartToolUse (Option.some c) name) :: mid)
    (initTransState st) h1
  have hS := stepStream_toolStart cfg (procLoop cfg (initTransState st) pre).state c name
  have hcons := procLoop_cons cfg (procLoop cfg (initTransState st) pre).state
    (SdkMsg.streamEvent (StreamEv.contentBlockStartToolUse (Option.some c) name)) mid h2
  have hmid := procLoop_preserves_tool cfg mid
    (stepMsg cfg (procLoop cfg (initTransState st) pre).state
      (SdkMsg.streamEvent (StreamEv.contentBlockStartToolUse (Option.some c) name))).1 c
    (hS.2.1.trans h2) hS.1 h3
  have hev : (translateStream cfg (initTransState st)
      (pre ++ SdkMsg.streamEvent (StreamEv.contentBlockStartToolUse (Option.some c) name)
         :: mid) err).events =
      (procLoop cfg (initTransState st)
        (pre ++ SdkMsg.streamEvent (StreamEv.contentBlockStartToolUse (Option.some c) name)
           :: mid)).events
      ++ (cleanupState (procLoop cfg (initTransState st)
            (pre ++ SdkMsg.streamEvent (StreamEv.contentBlockStartToolUse (Option.some c) name)
               :: mid)).state).2
      ++ snapshotEvents cfg (cleanupState (procLoop cfg (initTransState st)
            (pre ++ SdkMsg.streamEvent (StreamEv.contentBlockStartToolUse (Option.some c) name)
               :: mid)).state).1 := rfl
  constructor
  · rw [hev, hA]
    refine List.mem_append_left _ (List.mem_append_left _ ?_)
    show _ ∈ (procLoop cfg (initTransState st) pre).events
      ++ (procLoop cfg (procLoop cfg (initTransState st) pre).state
            (SdkMsg.streamEvent (StreamEv.contentBlockStartToolUse (Option.some c) name)
               :: mid)).events
    refine List.mem_append_right _ ?_
    rw [hcons]
    show _ ∈ (stepMsg cfg (procLoop cfg (initTransState st) pre).state
      (SdkMsg.streamEvent (StreamEv.contentBlockStartToolUse (Option.some c) name))).2 ++ _
    rw [show (stepMsg cfg (procLoop cfg (initTransState st) pre).state
      (SdkMsg.streamEvent (StreamEv.contentBlockStartToolUse (Option.some c) name))).2 =
      [Event.toolCallStart c (stripMcp name)
        (procLoop cfg (initTransState st) pre).state.currentMessageId] from hS.2.2]
    exact List.mem_append_left _ (List.mem_cons_self _ _)
  · rw [hev]
    refine List.mem_append_left _ (List.mem_append_right _ ?_)
    apply cleanupState_toolEnd
    rw [hA]
    show (procLoop cfg (procLoop cfg (initTransState st) pre).state
      (SdkMsg.streamEvent (StreamEv.contentBlockStartToolUse (Option.some c) name)
         :: mid)).state.curToolId = Option.some c
    rw [hcons]
    exact hmid.1

/-- Witness for C2: an empty prefix, the state tool left open by the
start and args chunks, then the stream raises. -/
theorem c2_witness :
    Event.toolCallStart "t9" "doit"
        (procLoop cfgT (initTransState Option.none) []).state.currentMessageId ∈
      (translateStream cfgT (initTransState Option.none)
        [SdkMsg.streamEvent (StreamEv.contentBlockStartToolUse (Option.some "t9")
           "mcp__ag_ui__doit"),
         SdkMsg.streamEvent (StreamEv.inputJsonDelta "[1")]
        (Option.some "boom")).events
    ∧ Event.toolCallEnd "t9" ∈
      (translateStream cfgT (initTransState Option.none)
        [SdkMsg.streamEvent (StreamEv.contentBlockStartToolUse (Option.some "t9")
           "mcp__ag_ui__doit"),
         SdkMsg.streamEvent (StreamEv.inputJsonDelta "[1")]
        (Option.some "boom")).events := by
  have h := c2_interrupted_tool_call_closed cfgT Option.none []
    [SdkMsg.streamEvent (StreamEv.inputJsonDelta "[1")] "t9" "mcp__ag_ui__doit"
    (Option.some "boom") rfl rfl
    (by intro m hm; rcases List.mem_singleton.mp hm with h2; rw [h2]; rfl)
  exact h

/-! ### C4 -/

/-- C4: for every turn whose vendor query raises: the worker enqueues the
wrapper and sentinel, `query` re-raises the wrapped exception when it
reads the wrapper (modelled by `queryConsume` returning the error), the
translator captures it, runs cleanup (its events precede the error), and
re-raises; `run()` then ends with a run-error carrying the exception text
and emits no run-finished event. -/
theorem c4_turn_error_chain (loads : String → Option Json) (input : RunInput)
    (ws : WorkerState) (delivered : List SdkMsg) (e : String)
    (hmsg : extractUserMessage input ≠ "")
    (hnb : (procLoop (mkConfig loads input) (initTransState input.state) delivered).broke
        = false) :
    queryConsume (workerTurn ws delivered (Option.some e)).2 = (delivered, Option.some e)
    ∧ (translateStream (mkConfig loads input) (initTransState input.state) delivered
        (Option.some e)).error = Option.some e
    ∧ runAdapter loads input delivered (Option.some e) =
        RunEvent.started input.threadId input.runId ::
        ((match input.state with
          | Option.some st => if st.truthy then [RunEvent.ev (Event.stateSnapshot st)] else []
          | Option.none => [])
         ++ ((translateStream (mkConfig loads input) (initTransState input.state) delivered
              (Option.some e)).events.map RunEvent.ev)
         ++ [RunEvent.errorEv e])
    ∧ (runAdapter loads input delivered (Option.some e)).getLast? =
        Option.some (RunEvent.errorEv e)
    ∧ ∀ r : Option Json, RunEvent.finished r ∉ runAdapter loads input delivered (Option.some e)
    := by
  have hq : queryConsume (workerTurn ws delivered (Option.some e)).2 =
      (delivered, Option.some e) := by
    have h2 : (workerTurn ws delivered (Option.some e)).2 =
        delivered.map QItem.msg ++ QItem.err e :: [QItem.sentinel] := by
      simp only [workerTurn]
      rw [forwardMsgs_snd]
      simp
    rw [h2]
    exact queryConsume_msgs delivered [QItem.sentinel] e
  have herr : (translateStream (mkConfig loads input) (initTransState input.state) delivered
      (Option.some e)).error = Option.some e := by
    show (if (procLoop (mkConfig loads input) (initTransState input.state) delivered).broke
        then Option.none else Option.some e) = Option.some e
    rw [hnb]
    simp
  have hrun : runAdapter loads input delivered (Option.some e) =
      RunEvent.started input.threadId input.runId ::
      ((match input.state with
        | Option.some st => if st.truthy then [RunEvent.ev (Event.stateSnapshot st)] else []
        | Option.none => [])
       ++ ((translateStream (mkConfig loads input) (initTransState input.state) delivered
            (Option.some e)).events.map RunEvent.ev)
       ++ [RunEvent.errorEv e]) := by
    unfold runAdapter
    rw [if_neg hmsg]
    simp only [herr]
  refine ⟨hq, herr, hrun, ?_, ?_⟩
  · rw [hrun]
    rw [show RunEvent.started input.threadId input.runId ::
        ((match input.state with
          | Option.some st => if st.truthy then [RunEvent.ev (Event.stateSnapshot st)] else []
          | Option.none => [])
         ++ ((translateStream (mkConfig loads input) (initTransState input.state) delivered
              (Option.some e)).events.map RunEvent.ev)
         ++ [RunEvent.errorEv e]) =
        (RunEvent.started input.threadId input.runId ::
          ((match input.state with
            | Option.some st => if st.truthy then [RunEvent.ev (Event.stateSnapshot st)] else []
            | Option.none => [])
           ++ ((translateStream (mkConfig loads input) (initTransState input.state) delivered
                (Option.some e)).events.map RunEvent.ev)))
          ++ [RunEvent.errorEv e] from by simp]
    exact List.getLast?_concat _
  · intro r hr
    rw [hrun] at hr
    rcases List.mem_cons.mp hr with h | h
    · exact RunEvent.noConfusion h
    rcases List.mem_append.mp h with h | h
    · rcases List.mem_append.mp h with h | h
      · rcases hst : input.state with _ | stv
        · rw [hst] at h
          simp at h
        · rw [hst] at h
          by_cases ht : stv.truthy
          · simp [ht] at h
          · simp [ht] at h
      · rcases List.mem_map.mp h with ⟨x, hx, hx2⟩
        exact RunEvent.noConfusion hx2
    · rcases List.mem_singleton.mp h with h2
      exact RunEvent.noConfusion h2

/-- The single-user-message input used by the C4 witness. -/
def inputHi : RunInput := ⟨"t1", "r1", [⟨"user", InContent.str "hi"⟩], [], Option.none⟩

/-- Witness for C4 at a concrete failing turn. -/
theorem c4_witness :
    queryConsume (workerTurn ⟨Option.none⟩ [] (Option.some "boom")).2 =
      ([], Option.some "boom")
    ∧ (runAdapter noLoads inputHi [] (Option.some "boom")).getLast? =
        Option.some (RunEvent.errorEv "boom")
    ∧ RunEvent.finished Option.none ∉ runAdapter noLoads inputHi [] (Option.some "boom") := by
  obtain ⟨h1, h2, h3, h4, h5⟩ := c4_turn_error_chain noLoads inputHi ⟨Option.none⟩ [] "boom"
    (by decide) rfl
  exact ⟨h1, h4, h5 Option.none⟩

/-! ### C1 support: concatenation and per-step summaries -/

/-- Concatenation of a list of strings (the accumulated message text is
the concatenation of its deltas). -/
def concatAll : List String → String
  | [] => ""
  | d :: rest => d ++ concatAll rest

theorem deltasOf_cons_delta (t : String) (rest : List SdkMsg) (h : ¬ t = "") :
    deltasOf (SdkMsg.streamEvent (StreamEv.textDelta t) :: rest) = t :: deltasOf rest := by
  simp [deltasOf, List.filterMap_cons, h]

theorem deltasOf_cons_other (x : SdkMsg) (rest : List SdkMsg) (h : deltasOf [x] = []) :
    deltasOf (x :: rest) = deltasOf rest := by
  cases x with
  | streamEvent e =>
    cases e with
    | textDelta u =>
      by_cases hu : u = ""
      · simp [deltasOf, List.filterMap_cons, hu]
      · exfalso
        simp [deltasOf, List.filterMap_cons, hu] at h
    | messageStart => rfl
    | thinkingDelta u => rfl
    | inputJsonDelta u => rfl
    | contentBlockStartThinking => rfl
    | contentBlockStartToolUse i n => rfl
    | contentBlockStop => rfl
    | messageStop => rfl
    | messageDelta r => rfl
    | other => rfl
  | assistant bs p => rfl
  | user bs p => rfl
  | system a b c => rfl
  | result r j => rfl

theorem deltasOf_ne_empty (l : List SdkMsg) : ∀ t ∈ deltasOf l, t ≠ "" := by
  intro t ht
  unfold deltasOf at ht
  rcases List.mem_filterMap.mp ht with ⟨x, hx, hfx⟩
  cases x with
  | streamEvent e =>
    cases e with
    | textDelta u =>
      by_cases hu : u = ""
      · simp [hu] at hfx
      · simp [hu] at hfx
        rw [← hfx]
        exact hu
    | messageStart => simp at hfx
    | thinkingDelta u => simp at hfx
    | inputJsonDelta u => simp at hfx
    | contentBlockStartThinking => simp at hfx
    | contentBlockStartToolUse i n => simp at hfx
    | contentBlockStop => simp at hfx
    | messageStop => simp at hfx
    | messageDelta r => simp at hfx
    | other => simp at hfx
  | assistant bs p => simp at hfx
  | user bs p => simp at hfx
  | system a b c => simp at hfx
  | result r j => simp at hfx

theorem eventsFor_append (m : Ident) (a b : List Event) :
    eventsFor m (a ++ b) = eventsFor m a ++ eventsFor m b := by
  unfold eventsFor
  exact List.filter_append _ _

theorem eventsFor_all_false (m : Ident) (l : List Event)
    (h : ∀ e ∈ l, isMsgEvent m e = false) : eventsFor m l = [] := by
  unfold eventsFor
  induction l with
  | nil => rfl
  | cons e rest ih =>
    rw [List.filter_cons, h e (List.mem_cons_self _ _)]
    simpa using ih (fun x hx => h x (List.mem_cons_of_mem _ hx))

/-- Summary of one mid-stream step that does not touch the open text
message `m`: events carry no text lifecycle event for `m`, the message
id, halt flag, streamed-text flag are unchanged, the pending message
keeps its id and content, any new display name is frontend-safe, new run
messages only carry future fresh ids, and the fresh counter only
grows. -/
def MidOk (cfg : Config) (m : Ident) (s : TransState) (x : SdkMsg) : Prop :=
  (∀ e ∈ (stepMsg cfg s x).2, isMsgEvent m e = false)
  ∧ (stepMsg cfg s x).1.currentMessageId = s.currentMessageId
  ∧ (stepMsg cfg s x).1.halt = s.halt
  ∧ (stepMsg cfg s x).1.hasStreamedText = s.hasStreamedText
  ∧ (∀ p, s.pendingMsg = Option.some p →
      ∃ q, (stepMsg cfg s x).1.pendingMsg = Option.some q
        ∧ q.id = p.id ∧ q.content = p.content)
  ∧ (∀ d, (stepMsg cfg s x).1.curToolDisplay = Option.some d →
      s.curToolDisplay = Option.some d ∨ cfg.frontendTools.contains d = false)
  ∧ (∀ msg ∈ (stepMsg cfg s x).1.runMessages,
      msg ∈ s.runMessages ∨ ∃ k, AwMessage.mid msg = Ident.fresh (s.fresh + k))
  ∧ (∃ j, (stepMsg cfg s x).1.fresh = s.fresh + j)

theorem midOk_of_same (cfg : Config) (m : Ident) (s : TransState) (x : SdkMsg)
    (h1 : (stepMsg cfg s x).1.currentMessageId = s.currentMessageId)
    (h2 : (stepMsg cfg s x).1.halt = s.halt)
    (h3 : (stepMsg cfg s x).1.hasStreamedText = s.hasStreamedText)
    (h4 : (stepMsg cfg s x).1.pendingMsg = s.pendingMsg)
    (h5 : (stepMsg cfg s x).1.curToolDisplay = s.curToolDisplay)
    (h6 : (stepMsg cfg s x).1.runMessages = s.runMessages)
    (h7 : (stepMsg cfg s x).1.fresh = s.fresh)
    (h8 : ∀ e ∈ (stepMsg cfg s x).2, isMsgEvent m e = false) :
    MidOk cfg m s x :=
  ⟨h8, h1, h2, h3,
   fun p hp => ⟨p, by rw [h4]; exact hp, rfl, rfl⟩,
   fun d hd => Or.inl (by rw [← h5]; exact hd),
   fun msg hm => Or.inl (by rw [← h6]; exact hm),
   ⟨0, by rw [h7, Nat.add_zero]⟩⟩

theorem midOk_textDeltaEmpty (cfg : Config) (m : Ident) (s : TransState) :
    MidOk cfg m s (SdkMsg.streamEvent (StreamEv.textDelta "")) := by
  refine midOk_of_same cfg m s _ ?_ ?_ ?_ ?_ ?_ ?_ ?_ ?_ <;>
    rcases hm : s.currentMessageId with _ | mid <;>
      first
        | rfl
        | simp [stepMsg, stepStream, hm, isMsgEvent]

theorem midOk_thinkingDelta (cfg : Config) (m : Ident) (s : TransState) (t : String) :
    MidOk cfg m s (SdkMsg.streamEvent (StreamEv.thinkingDelta t)) := by
  refine midOk_of_same cfg m s _ ?_ ?_ ?_ ?_ ?_ ?_ ?_ ?_ <;>
    by_cases ht : t = "" <;>
      first
        | rfl
        | simp [stepMsg, stepStream, ht, isMsgEvent]

theorem midOk_inputJsonDelta (cfg : Config) (m : Ident) (s : TransState) (pj : String) :
    MidOk cfg m s (SdkMsg.streamEvent (StreamEv.inputJsonDelta pj)) := by
  refine midOk_of_same cfg m s _ ?_ ?_ ?_ ?_ ?_ ?_ ?_ ?_ <;>
    rcases hc : s.curToolId with _ | tid <;> by_cases hp : pj = "" <;>
      first
        | rfl
        | simp [stepMsg, stepStream, hc, hp, isMsgEvent]

theorem midOk_thinkStart (cfg : Config) (m : Ident) (s : TransState) :
    MidOk cfg m s (SdkMsg.streamEvent StreamEv.contentBlockStartThinking) := by
  refine midOk_of_same cfg m s _ rfl rfl rfl rfl rfl rfl rfl ?_
  intro e he
  have h := List.mem_cons.mp he
  rcases h with h | h
  · rw [h]; rfl
  · rcases List.mem_singleton.mp h with h2
    rw [h2]; rfl

theorem midOk_messageDelta (cfg : Config) (m : Ident) (s : TransState) (r : Option String) :
    MidOk cfg m s (SdkMsg.streamEvent (StreamEv.messageDelta r)) :=
  midOk_of_same cfg m s _ rfl rfl rfl rfl rfl rfl rfl (by intro e he; simp [stepMsg, stepStream] at he)

theorem midOk_otherEv (cfg : Config) (m : Ident) (s : TransState) :
    MidOk cfg m s (SdkMsg.streamEvent StreamEv.other) :=
  midOk_of_same cfg m s _ rfl rfl rfl rfl rfl rfl rfl (by intro e he; simp [stepMsg, stepStream] at he)

theorem midOk_toolStart (cfg : Config) (m : Ident) (s : TransState)
    (idOpt : Option String) (name : String)
    (hf : cfg.frontendTools.contains (stripMcp name) = false) :
    MidOk cfg m s (SdkMsg.streamEvent (StreamEv.contentBlockStartToolUse idOpt name)) := by
  rcases idOpt with _ | tid
  · exact midOk_of_same cfg m s _ rfl rfl rfl rfl rfl rfl rfl (by intro e he; simp [stepMsg, stepStream] at he)
  · refine ⟨?_, rfl, rfl, rfl, ?_, ?_, ?_, ⟨0, rfl⟩⟩
    · intro e he
      have h2 := List.mem_singleton.mp he
      rw [h2]
      rfl
    · intro p hp
      exact ⟨p, hp, rfl, rfl⟩
    · intro d hd
      right
      have h2 : stripMcp name = d := Option.some.inj hd
      rw [← h2]
      exact hf
    · intro msg hm
      exact Or.inl hm

theorem stopThink_runMessages (s : TransState) :
    ∀ msg ∈ (stopThink s).1.runMessages,
      msg ∈ s.runMessages ∨ ∃ k, AwMessage.mid msg = Ident.fresh (s.fresh + k) := by
  intro msg hm
  unfold stopThink at hm
  by_cases h1 : s.inThinking
  · by_cases h2 : s.accThinking = ""
    · simp [h1, h2] at hm
      exact Or.inl hm
    · simp [h1, h2] at hm
      rcases upsertMessage_mem _ _ _ hm with h | h
      · exact Or.inl h
      · right
        exact ⟨0, by rw [h, Nat.add_zero]; rfl⟩
  · simp [h1] at hm
    exact Or.inl hm

theorem stopThink_fresh (s : TransState) : ∃ j, (stopThink s).1.fresh = s.fresh + j := by
  unfold stopThink
  by_cases h1 : s.inThinking
  · by_cases h2 : s.accThinking = ""
    · exact ⟨0, by simp [h1, h2]⟩
    · exact ⟨1, by simp [h1, h2]⟩
  · exact ⟨0, by simp [h1]⟩

theorem stopThink_noMsgEvents (s : TransState) (m : Ident) :
    ∀ e ∈ (stopThink s).2, isMsgEvent m e = false := by
  intro e he
  unfold stopThink at he
  by_cases h1 : s.inThinking
  · by_cases h2 : s.accThinking = "" <;>
      simp [h1, h2] at he <;>
        rcases he with h | h <;> rw [h] <;> rfl
  · simp [h1] at he

theorem stopStateTool_noMsgEvents (cfg : Config) (s : TransState) (m : Ident) :
    ∀ e ∈ (stopStateTool cfg s).2, isMsgEvent m e = false := by
  unfold stopStateTool
  split
  · split
    · split
      · simp [isMsgEvent]
      · simp
    · simp
  · simp

theorem stopStateTool_fresh (cfg : Config) (s : TransState) :
    (stopStateTool cfg s).1.fresh = s.fresh := by
  unfold stopStateTool
  split
  · split
    · split
      · simp
      · simp
    · simp
  · simp

theorem stopPush_fresh (tid : String) (s : TransState) :
    (stopPush tid s).fresh = s.fresh := by
  unfold stopPush
  split
  · split <;> simp
  · rfl

theorem stopPush_pending (tid : String) (s : TransState) :
    ∀ p, s.pendingMsg = Option.some p →
      ∃ q, (stopPush tid s).pendingMsg = Option.some q
        ∧ q.id = p.id ∧ q.content = p.content := by
  intro p hp
  rcases hd : s.curToolDisplay with _ | disp
  · refine ⟨p, ?_, rfl, rfl⟩
    unfold stopPush
    rw [hp, hd]
    exact hp
  · by_cases hcond : disp ≠ "" ∧ ¬ (s.curToolName.map isStateToolName).getD false
    · refine ⟨{ p with toolCalls := p.toolCalls ++ [⟨tid, disp, s.accJson⟩] }, ?_, rfl, rfl⟩
      unfold stopPush
      rw [hp, hd]
      simp [hcond]
    · refine ⟨p, ?_, rfl, rfl⟩
      unfold stopPush
      rw [hp, hd]
      simp only [if_neg hcond]
      exact hp

theorem stopToolClose_nonfrontend_state (cfg : Config) (tid : String) (s : TransState)
    (hfe : ∀ dsp, s.curToolDisplay = Option.some dsp → cfg.frontendTools.contains dsp = false) :
    (stopToolClose cfg tid s).1 =
      { stopPush tid (stopStateTool cfg s).1 with
          curToolId := Option.none, curToolName := Option.none,
          curToolDisplay := Option.none, accJson := "" }
    ∧ (stopToolClose cfg tid s).2 = (stopStateTool cfg s).2 := by
  rcases hdisp : (stopPush tid (stopStateTool cfg s).1).curToolDisplay with _ | dsp
  · unfold stopToolClose
    constructor <;> simp [hdisp]
  · have hsd : s.curToolDisplay = Option.some dsp := by
      rw [← (stopStateTool_preserves cfg s).2.2.1, ← (stopPush_preserves tid _).2.2.1, hdisp]
    have hnc : dsp ∉ cfg.frontendTools := by simpa using hfe dsp hsd
    unfold stopToolClose
    constructor <;> simp [hdisp, hnc]

theorem midOk_stop (cfg : Config) (m : Ident) (s : TransState)
    (hfe : ∀ d, s.curToolDisplay = Option.some d → cfg.frontendTools.contains d = false) :
    MidOk cfg m s (SdkMsg.streamEvent StreamEv.contentBlockStop) := by
  have hpres := stopThink_preserves s
  rcases hc : s.curToolId with _ | tid
  · have hnone : (stopThink s).1.curToolId = Option.none := by rw [hpres.1]; exact hc
    have hstep : stepMsg cfg s (SdkMsg.streamEvent StreamEv.contentBlockStop) = stopThink s := by
      simp [stepMsg, stepStream, hnone]
    refine ⟨?_, ?_, ?_, ?_, ?_, ?_, ?_, ?_⟩
    · intro e he
      rw [hstep] at he
      exact stopThink_noMsgEvents s m e he
    · rw [hstep]
      exact hpres.2.2.2.2.2.2.2.1
    · rw [hstep]
      exact hpres.2.2.2.2.1
    · rw [hstep]
      exact hpres.2.2.2.2.2.2.2.2.1
    · intro p hp
      refine ⟨p, ?_, rfl, rfl⟩
      rw [hstep, hpres.2.2.2.2.2.1]
      exact hp
    · intro d hd
      rw [hstep, hpres.2.2.1] at hd
      exact Or.inl hd
    · intro msg hm
      rw [hstep] at hm
      exact stopThink_runMessages s msg hm
    · rw [hstep]
      exact stopThink_fresh s
  · have hsome : (stopThink s).1.curToolId = Option.some tid := by rw [hpres.1]; exact hc
    have hstep : stepMsg cfg s (SdkMsg.streamEvent StreamEv.contentBlockStop) =
        ((stopToolClose cfg tid (stopThink s).1).1,
         (stopThink s).2 ++ (stopToolClose cfg tid (stopThink s).1).2) :=
      stepStream_stop_eq cfg s tid hsome
    have hfet : ∀ d, (stopThink s).1.curToolDisplay = Option.some d →
        cfg.frontendTools.contains d = false := by
      intro d hd
      rw [hpres.2.2.1] at hd
      exact hfe d hd
    obtain ⟨hcS, hcE⟩ := stopToolClose_nonfrontend_state cfg tid (stopThink s).1 hfet
    have hppres := stopPush_preserves tid (stopStateTool cfg (stopThink s).1).1
    have hspres := stopStateTool_preserves cfg (stopThink s).1
    refine ⟨?_, ?_, ?_, ?_, ?_, ?_, ?_, ?_⟩
    · intro e he
      rw [hstep] at he
      rcases List.mem_append.mp he with h | h
      · exact stopThink_noMsgEvents s m e h
      · rw [hcE] at h
        exact stopStateTool_noMsgEvents cfg (stopThink s).1 m e h
    · rw [hstep]
      show (stopToolClose cfg tid (stopThink s).1).1.currentMessageId = s.currentMessageId
      rw [hcS]
      show (stopPush tid (stopStateTool cfg (stopThink s).1).1).currentMessageId
          = s.currentMessageId
      rw [hppres.2.2.2.2.2.1, hspres.2.2.2.2.2.2.1, hpres.2.2.2.2.2.2.2.1]
    · rw [hstep]
      show (stopToolClose cfg tid (stopThink s).1).1.halt = s.halt
      rw [hcS]
      show (stopPush tid (stopStateTool cfg (stopThink s).1).1).halt = s.halt
      rw [hppres.2.2.2.2.1, hspres.2.2.2.1, hpres.2.2.2.2.1]
    · rw [hstep]
      show (stopToolClose cfg tid (stopThink s).1).1.hasStreamedText = s.hasStreamedText
      rw [hcS]
      show (stopPush tid (stopStateTool cfg (stopThink s).1).1).hasStreamedText
          = s.hasStreamedText
      rw [hppres.2.2.2.2.2.2.1, hspres.2.2.2.2.2.2.2.1, hpres.2.2.2.2.2.2.2.2.1]
    · intro p hp
      have hp1 : (stopThink s).1.pendingMsg = Option.some p := by
        rw [hpres.2.2.2.2.2.1]
        exact hp
      have hp2 : (stopStateTool cfg (stopThink s).1).1.pendingMsg = Option.some p := by
        rw [hspres.2.2.2.2.1]
        exact hp1
      obtain ⟨q, hq1, hq2, hq3⟩ :=
        stopPush_pending tid (stopStateTool cfg (stopThink s).1).1 p hp2
      refine ⟨q, ?_, hq2, hq3⟩
      rw [hstep]
      show (stopToolClose cfg tid (stopThink s).1).1.pendingMsg = Option.some q
      rw [hcS]
      exact hq1
    · intro d hd
      rw [hstep] at hd
      rw [show (stopToolClose cfg tid (stopThink s).1).1.curToolDisplay = Option.none from
        by rw [hcS]] at hd
      exact Option.noConfusion hd
    · intro msg hm
      rw [hstep] at hm
      rw [show (stopToolClose cfg tid (stopThink s).1).1.runMessages =
          (stopThink s).1.runMessages from by
        rw [hcS]
        show (stopPush tid (stopStateTool cfg (stopThink s).1).1).runMessages = _
        rw [hppres.2.2.2.2.2.2.2, hspres.2.2.2.2.2.2.2.2.1]] at hm
      exact stopThink_runMessages s msg hm
    · rw [hstep]
      rw [show (stopToolClose cfg tid (stopThink s).1).1.fresh = (stopThink s).1.fresh from by
        rw [hcS]
        show (stopPush tid (stopStateTool cfg (stopThink s).1).1).fresh = _
        rw [stopPush_fresh, stopStateTool_fresh]]
      exact stopThink_fresh s

/-- The conclusion bundle of the mid-stream run lemma: loop without
break or halt, message id and frontend-safety preserved, pending content
grown by exactly the deltas, correct streamed-text flag, run messages and
future fresh ids never colliding with `m`, and the text events for `m`
being exactly an optional start followed by the content deltas. -/
def MidRunOut (cfg : Config) (m : Ident) (s : TransState) (p : Pending)
    (l : List SdkMsg) : Prop :=
  (procLoop cfg s l).broke = false
  ∧ (procLoop cfg s l).state.currentMessageId = Option.some m
  ∧ (procLoop cfg s l).state.halt = false
  ∧ (∃ q : Pending, (procLoop cfg s l).state.pendingMsg = Option.some q ∧ q.id = p.id
       ∧ q.content = p.content ++ concatAll (deltasOf l))
  ∧ (procLoop cfg s l).state.hasStreamedText = (s.hasStreamedText || !(deltasOf l).isEmpty)
  ∧ (∀ d, (procLoop cfg s l).state.curToolDisplay = Option.some d →
       cfg.frontendTools.contains d = false)
  ∧ (∀ msg ∈ (procLoop cfg s l).state.runMessages, AwMessage.mid msg ≠ m)
  ∧ (∀ k : Nat, m ≠ Ident.fresh ((procLoop cfg s l).state.fresh + k))
  ∧ eventsFor m (procLoop cfg s l).events =
      (if s.hasStreamedText || (deltasOf l).isEmpty then []
       else [Event.textStart m "assistant"])
      ++ (deltasOf l).map (fun t => Event.textContent m t)

theorem midOk_extend (cfg : Config) (m : Ident) (x : SdkMsg) (rest : List SdkMsg)
    (s : TransState) (p : Pending)
    (hok : MidOk cfg m s x)
    (hdx : deltasOf [x] = [])
    (hm : s.currentMessageId = Option.some m)
    (hh : s.halt = false)
    (hp : s.pendingMsg = Option.some p)
    (hfr : ∀ k : Nat, m ≠ Ident.fresh (s.fresh + k))
    (IH : ∀ (s2 : TransState) (p2 : Pending),
        s2.currentMessageId = Option.some m → s2.halt = false →
        s2.pendingMsg = Option.some p2 →
        (∀ d, s2.curToolDisplay = Option.some d → cfg.frontendTools.contains d = false) →
        (∀ msg ∈ s2.runMessages, AwMessage.mid msg ≠ m) →
        (∀ k : Nat, m ≠ Ident.fresh (s2.fresh + k)) →
        MidRunOut cfg m s2 p2 rest)
    (hfe : ∀ d, s.curToolDisplay = Option.some d → cfg.frontendTools.contains d = false)
    (hrun : ∀ msg ∈ s.runMessages, AwMessage.mid msg ≠ m) :
    MidRunOut cfg m s p (x :: rest) := by
  obtain ⟨hE, h1, h2, h3, h4, h5, h6, ⟨j, h7⟩⟩ := hok
  obtain ⟨q0, hq0, hq0id, hq0c⟩ := h4 p hp
  have hd2 : ∀ d, (stepMsg cfg s x).1.curToolDisplay = Option.some d →
      cfg.frontendTools.contains d = false := by
    intro d hd
    rcases h5 d hd with h | h
    · exact hfe d h
    · exact h
  have hr2 : ∀ msg ∈ (stepMsg cfg s x).1.runMessages, AwMessage.mid msg ≠ m := by
    intro msg hmm heq
    rcases h6 msg hmm with h | ⟨k, hk⟩
    · exact hrun msg h heq
    · exact hfr k (by rw [← heq]; exact hk)
  have hf2 : ∀ k : Nat, m ≠ Ident.fresh ((stepMsg cfg s x).1.fresh + k) := by
    intro k
    rw [h7, Nat.add_assoc]
    exact hfr (j + k)
  have IH2 := IH (stepMsg cfg s x).1 q0 (h1.trans hm) (h2.trans hh) hq0 hd2 hr2 hf2
  obtain ⟨i1, i2, i3, ⟨q, iq1, iq2, iq3⟩, i5, i6, i7, i8, i9⟩ := IH2
  have hcons := procLoop_cons cfg s x rest hh
  have hdel : deltasOf (x :: rest) = deltasOf rest := deltasOf_cons_other x rest hdx
  refine ⟨?_, ?_, ?_, ⟨q, ?_, ?_, ?_⟩, ?_, ?_, ?_, ?_, ?_⟩
  · rw [hcons]; exact i1
  · rw [hcons]; exact i2
  · rw [hcons]; exact i3
  · rw [hcons]; exact iq1
  · rw [iq2, hq0id]
  · rw [iq3, hq0c, hdel]
  · rw [hcons, hdel]
    show (procLoop cfg (stepMsg cfg s x).1 rest).state.hasStreamedText = _
    rw [i5, h3]
  · rw [hcons]; exact i6
  · rw [hcons]; exact i7
  · rw [hcons]; exact i8
  · rw [hcons]
    show eventsFor m ((stepMsg cfg s x).2 ++ (procLoop cfg (stepMsg cfg s x).1 rest).events) = _
    rw [eventsFor_append, eventsFor_all_false m _ hE, List.nil_append, i9, h3, hdel]

theorem c1_mid_run (cfg : Config) (m : Ident) :
    ∀ (l : List SdkMsg) (s : TransState) (p : Pending),
    (∀ x ∈ l, isStreamMid cfg x = true) →
    s.currentMessageId = Option.some m →
    s.halt = false →
    s.pendingMsg = Option.some p →
    (∀ d, s.curToolDisplay = Option.some d → cfg.frontendTools.contains d = false) →
    (∀ msg ∈ s.runMessages, AwMessage.mid msg ≠ m) →
    (∀ k : Nat, m ≠ Ident.fresh (s.fresh + k)) →
    MidRunOut cfg m s p l := by
  intro l
  induction l with
  | nil =>
    intro s p hall hm hh hp hfe hrun hfr
    refine ⟨rfl, hm, hh, ⟨p, hp, rfl, ?_⟩, ?_, hfe, hrun, hfr, ?_⟩
    · simp [deltasOf, concatAll]
    · simp [procLoop, deltasOf]
    · simp [procLoop, eventsFor, deltasOf]
  | cons x rest ih =>
    intro s p hall hm hh hp hfe hrun hfr
    have h0 := hall x (List.mem_cons_self x rest)
    have hallr : ∀ y ∈ rest, isStreamMid cfg y = true :=
      fun y hy => hall y (List.mem_cons_of_mem x hy)
    have IH2 : ∀ (s2 : TransState) (p2 : Pending),
        s2.currentMessageId = Option.some m → s2.halt = false →
        s2.pendingMsg = Option.some p2 →
        (∀ d, s2.curToolDisplay = Option.some d → cfg.frontendTools.contains d = false) →
        (∀ msg ∈ s2.runMessages, AwMessage.mid msg ≠ m) →
        (∀ k : Nat, m ≠ Ident.fresh (s2.fresh + k)) →
        MidRunOut cfg m s2 p2 rest :=
      fun s2 p2 a b c d e f => ih s2 p2 hallr a b c d e f
    cases x with
    | streamEvent e =>
      cases e with
      | messageStart => simp [isStreamMid] at h0
      | messageStop => simp [isStreamMid] at h0
      | textDelta t =>
        by_cases ht : t = ""
        · subst ht
          exact midOk_extend cfg m _ rest s p (midOk_textDeltaEmpty cfg m s)
            (by simp [deltasOf]) hm hh hp hfr IH2 hfe hrun
        · have hstep : stepMsg cfg s (SdkMsg.streamEvent (StreamEv.textDelta t)) =
              ({ s with hasStreamedText := true,
                        pendingMsg := Option.some { p with content := p.content ++ t } },
               (if s.hasStreamedText then [] else [Event.textStart m "assistant"])
                 ++ [Event.textContent m t]) := by
            simp [stepMsg, stepStream, hm, ht, hp]
          have ih2 := IH2
            { s with hasStreamedText := true,
                     pendingMsg := Option.some { p with content := p.content ++ t } }
            { p with content := p.content ++ t }
            hm hh rfl hfe hrun hfr
          obtain ⟨i1, i2, i3, ⟨q, iq1, iq2, iq3⟩, i5, i6, i7, i8, i9⟩ := ih2
          have hcons := procLoop_cons cfg s (SdkMsg.streamEvent (StreamEv.textDelta t)) rest hh
          rw [hstep] at hcons
          have hdel := deltasOf_cons_delta t rest ht
          refine ⟨?_, ?_, ?_, ⟨q, ?_, ?_, ?_⟩, ?_, ?_, ?_, ?_, ?_⟩
          · rw [hcons]; exact i1
          · rw [hcons]; exact i2
          · rw [hcons]; exact i3
          · rw [hcons]; exact iq1
          · exact iq2
          · rw [iq3, hdel]
            simp [concatAll, String.append_assoc]
          · rw [hcons]
            show (procLoop cfg _ rest).state.hasStreamedText = _
            rw [i5, hdel]
            simp
          · rw [hcons]; exact i6
          · rw [hcons]; exact i7
          · rw [hcons]; exact i8
          · rw [hcons]
            show eventsFor m (_ ++ (procLoop cfg _ rest).events) = _
            rw [eventsFor_append, i9, hdel]
            by_cases hs : s.hasStreamedText = true <;>
              simp [eventsFor, isMsgEvent, hs]
      | thinkingDelta t =>
        exact midOk_extend cfg m _ rest s p (midOk_thinkingDelta cfg m s t)
          rfl hm hh hp hfr IH2 hfe hrun
      | inputJsonDelta pj =>
        exact midOk_extend cfg m _ rest s p (midOk_inputJsonDelta cfg m s pj)
          rfl hm hh hp hfr IH2 hfe hrun
      | contentBlockStartThinking =>
        exact midOk_extend cfg m _ rest s p (midOk_thinkStart cfg m s)
          rfl hm hh hp hfr IH2 hfe hrun
      | contentBlockStartToolUse idOpt name =>
        have hf : cfg.frontendTools.contains (stripMcp name) = false := by
          simp only [isStreamMid, Bool.not_eq_true'] at h0
          exact h0
        exact midOk_extend cfg m _ rest s p (midOk_toolStart cfg m s idOpt name hf)
          rfl hm hh hp hfr IH2 hfe hrun
      | contentBlockStop =>
        exact midOk_extend cfg m _ rest s p (midOk_stop cfg m s hfe)
          rfl hm hh hp hfr IH2 hfe hrun
      | messageDelta r =>
        exact midOk_extend cfg m _ rest s p (midOk_messageDelta cfg m s r)
          rfl hm hh hp hfr IH2 hfe hrun
      | other =>
        exact midOk_extend cfg m _ rest s p (midOk_otherEv cfg m s)
          rfl hm hh hp hfr IH2 hfe hrun
    | assistant blocks parent => simp [isStreamMid] at h0
    | user blocks parent => simp [isStreamMid] at h0
    | system st sid txt => simp [isStreamMid] at h0
    | result txt meta => simp [isStreamMid] at h0

theorem concatAll_ne_empty (l : List String) (h : ∀ t ∈ l, t ≠ "") (hne : l ≠ []) :
    concatAll l ≠ "" := by
  cases l with
  | nil => exact absurd rfl hne
  | cons d rest =>
    intro hEq
    apply h d (List.mem_cons_self _ _)
    have hEq2 : d ++ concatAll rest = "" := hEq
    have h2 := congrArg String.length hEq2
    rw [String.length_append] at h2
    have h0 : ("" : String).length = 0 := rfl
    have ha : d.length = 0 := by omega
    have hdata : d.data = [] := List.length_eq_zero.mp ha
    cases d
    simp at hdata
    simp [hdata]

theorem upsertMessage_isEmpty (l : List AwMessage) (n : AwMessage) :
    (upsertMessage l n).isEmpty = false := by
  cases l with
  | nil => rfl
  | cons y ys => by_cases hy : y.mid = n.mid <;> simp [upsertMessage, hy]

theorem cleanupState_noMsgEvents (m : Ident) (s : TransState)
    (h : s.currentMessageId = Option.none) :
    ∀ e ∈ (cleanupState s).2, isMsgEvent m e = false := by
  intro e he
  rcases hc : s.curToolId with _ | tid
  · by_cases hth : s.inThinking
    · simp [cleanupState, hc, hth, h] at he
      rcases he with rfl | rfl <;> rfl
    · simp [cleanupState, hc, hth, h] at he
  · by_cases hth : s.inThinking
    · simp [cleanupState, hc, hth, h] at he
      rcases he with rfl | rfl | rfl <;> rfl
    · simp [cleanupState, hc, hth, h] at he
      rw [he]
      rfl

theorem snapshotEvents_noMsgEvents (m : Ident) (cfg : Config) (s : TransState) :
    ∀ e ∈ snapshotEvents cfg s, isMsgEvent m e = false := by
  intro e he
  unfold snapshotEvents at he
  by_cases hr : s.runMessages.isEmpty
  · simp [hr] at he
  · simp [hr] at he
    rw [he]
    rfl

theorem cleanupState_runMessages_no_pending (s : TransState)
    (h : s.pendingMsg = Option.none) :
    (cleanupState s).1.runMessages = s.runMessages := by
  rcases hc : s.curToolId with _ | tid <;> by_cases hth : s.inThinking <;>
    simp [cleanupState, flushPending, hc, hth, h]

/-- The translator state right after `message_start` from the initial
state: open text message `fresh 0`, empty pending accumulator. -/
def c1StartState (st : Option Json) : TransState :=
  { initTransState st with
    currentMessageId := Option.some (Ident.fresh 0),
    pendingMsg := Option.some ⟨Ident.fresh 0, "", []⟩,
    fresh := 1 }

theorem c1_general_aux (st : Option Json) (cfg : Config) (mid : List SdkMsg)
    (err : Option String)
    (hall : ∀ x ∈ mid, isStreamMid cfg x = true)
    (hne : deltasOf mid ≠ []) :
    (eventsFor (Ident.fresh 0)
        (translateStream cfg (initTransState st)
          (SdkMsg.streamEvent StreamEv.messageStart ::
            (mid ++ [SdkMsg.streamEvent StreamEv.messageStop])) err).events =
      Event.textStart (Ident.fresh 0) "assistant" ::
        ((deltasOf mid).map (fun t => Event.textContent (Ident.fresh 0) t)
          ++ [Event.textEnd (Ident.fresh 0)]))
    ∧ ∃ msgs tcs,
        Event.messagesSnapshot cfg.inputMessages msgs ∈
          (translateStream cfg (initTransState st)
            (SdkMsg.streamEvent StreamEv.messageStart ::
              (mid ++ [SdkMsg.streamEvent StreamEv.messageStop])) err).events
        ∧ AwMessage.assistant (Ident.fresh 0)
            (Option.some (concatAll (deltasOf mid))) tcs ∈ msgs := by
  have hemp : (deltasOf mid).isEmpty = false := by
    rcases hdm : deltasOf mid with _ | ⟨a, b⟩
    · exact absurd hdm hne
    · rfl
  have hmr := c1_mid_run cfg (Ident.fresh 0) mid (c1StartState st) ⟨Ident.fresh 0, "", []⟩
    hall rfl rfl rfl
    (fun d hd => Option.noConfusion hd)
    (fun msg hmsg => absurd hmsg (List.not_mem_nil msg))
    (fun k => by
      intro hEq
      injection hEq with h2
      have hf : (c1StartState st).fresh = 1 := rfl
      omega)
  obtain ⟨i1, i2, i3, ⟨q, iq1, iq2, iq3⟩, i5, i6, i7, i8, i9⟩ := hmr
  have hst2 : (procLoop cfg (c1StartState st) mid).state.hasStreamedText = true := by
    rw [i5, hemp]
    rfl
  have hfp := flushPending_preserves (procLoop cfg (c1StartState st) mid).state
  have hfc : (flushPending (procLoop cfg (c1StartState st) mid).state).currentMessageId
      = Option.some (Ident.fresh 0) := by
    rw [hfp.2.2.2.2.2.1, i2]
  have hfh : (flushPending (procLoop cfg (c1StartState st) mid).state).hasStreamedText
      = true := by
    rw [hfp.2.2.2.2.2.2.1, hst2]
  have hstop : stepMsg cfg (procLoop cfg (c1StartState st) mid).state
      (SdkMsg.streamEvent StreamEv.messageStop) =
      ({ flushPending (procLoop cfg (c1StartState st) mid).state with
           currentMessageId := Option.none }, [Event.textEnd (Ident.fresh 0)]) := by
    simp [stepMsg, stepStream, hfc, hfh]
  have hcons2 : procLoop cfg (procLoop cfg (c1StartState st) mid).state
      [SdkMsg.streamEvent StreamEv.messageStop] =
      ⟨{ flushPending (procLoop cfg (c1StartState st) mid).state with
           currentMessageId := Option.none }, [Event.textEnd (Ident.fresh 0)], 1, false⟩ := by
    rw [procLoop_cons cfg _ _ [] i3, hstop]
    rfl
  have hcons1 := procLoop_cons cfg (initTransState st)
    (SdkMsg.streamEvent StreamEv.messageStart)
    (mid ++ [SdkMsg.streamEvent StreamEv.messageStop]) rfl
  have happ := procLoop_append cfg mid [SdkMsg.streamEvent StreamEv.messageStop]
    (c1StartState st) i1
  have hev : (procLoop cfg (initTransState st)
      (SdkMsg.streamEvent StreamEv.messageStart ::
        (mid ++ [SdkMsg.streamEvent StreamEv.messageStop]))).events =
      (procLoop cfg (c1StartState st) mid).events ++ [Event.textEnd (Ident.fresh 0)] := by
    rw [hcons1]
    show [] ++ (procLoop cfg (c1StartState st)
        (mid ++ [SdkMsg.streamEvent StreamEv.messageStop])).events = _
    rw [List.nil_append, happ, hcons2]
  have hstate : (procLoop cfg (initTransState st)
      (SdkMsg.streamEvent StreamEv.messageStart ::
        (mid ++ [SdkMsg.streamEvent StreamEv.messageStop]))).state =
      { flushPending (procLoop cfg (c1StartState st) mid).state with
          currentMessageId := Option.none } := by
    rw [hcons1]
    show (procLoop cfg (c1StartState st)
        (mid ++ [SdkMsg.streamEvent StreamEv.messageStop])).state = _
    rw [happ, hcons2]
  have hqid : q.id = Ident.fresh 0 := iq2
  have hqc : q.content = concatAll (deltasOf mid) := by
    rw [iq3]
    rfl
  have hqne : q.content ≠ "" := by
    rw [hqc]
    exact concatAll_ne_empty (deltasOf mid) (deltasOf_ne_empty mid) hne
  have hfl : flushPending (procLoop cfg (c1StartState st) mid).state =
      { (procLoop cfg (c1StartState st) mid).state with
          runMessages := upsertMessage (procLoop cfg (c1StartState st) mid).state.runMessages
            (AwMessage.assistant (Ident.fresh 0)
              (Option.some (concatAll (deltasOf mid)))
              (if q.toolCalls = [] then Option.none else Option.some q.toolCalls)),
          pendingMsg := Option.none } := by
    simp only [flushPending, iq1]
    rw [if_neg (fun hand => hqne hand.1), if_neg hqne, hqid, hqc]
  have hpend : ({ flushPending (procLoop cfg (c1StartState st) mid).state with
      currentMessageId := Option.none } : TransState).pendingMsg = Option.none := by
    rw [hfl]
  have hclrun : (cleanupState { flushPending (procLoop cfg (c1StartState st) mid).state with
      currentMessageId := Option.none }).1.runMessages =
      upsertMessage (procLoop cfg (c1StartState st) mid).state.runMessages
        (AwMessage.assistant (Ident.fresh 0)
          (Option.some (concatAll (deltasOf mid)))
          (if q.toolCalls = [] then Option.none else Option.some q.toolCalls)) := by
    rw [cleanupState_runMessages_no_pending _ hpend, hfl]
  have hcl2 : eventsFor (Ident.fresh 0)
      (cleanupState { flushPending (procLoop cfg (c1StartState st) mid).state with
        currentMessageId := Option.none }).2 = [] :=
    eventsFor_all_false _ _ (cleanupState_noMsgEvents _ _ rfl)
  have hsnapNo : eventsFor (Ident.fresh 0)
      (snapshotEvents cfg (cleanupState
        { flushPending (procLoop cfg (c1StartState st) mid).state with
          currentMessageId := Option.none }).1) = [] :=
    eventsFor_all_false _ _ (snapshotEvents_noMsgEvents _ cfg _)
  have hmidEv : eventsFor (Ident.fresh 0) (procLoop cfg (c1StartState st) mid).events =
      Event.textStart (Ident.fresh 0) "assistant" ::
        (deltasOf mid).map (fun t => Event.textContent (Ident.fresh 0) t) := by
    rw [i9, hemp]
    rfl
  have hend : eventsFor (Ident.fresh 0) [Event.textEnd (Ident.fresh 0)] =
      [Event.textEnd (Ident.fresh 0)] := rfl
  have hout : (translateStream cfg (initTransState st)
      (SdkMsg.streamEvent StreamEv.messageStart ::
        (mid ++ [SdkMsg.streamEvent StreamEv.messageStop])) err).events =
      (procLoop cfg (initTransState st)
        (SdkMsg.streamEvent StreamEv.messageStart ::
          (mid ++ [SdkMsg.streamEvent StreamEv.messageStop]))).events
      ++ (cleanupState (procLoop cfg (initTransState st)
            (SdkMsg.streamEvent StreamEv.messageStart ::
              (mid ++ [SdkMsg.streamEvent StreamEv.messageStop]))).state).2
      ++ snapshotEvents cfg (cleanupState (procLoop cfg (initTransState st)
            (SdkMsg.streamEvent StreamEv.messageStart ::
              (mid ++ [SdkMsg.streamEvent StreamEv.messageStop]))).state).1 := rfl
  constructor
  · rw [hout, hev, hstate, eventsFor_append, eventsFor_append, eventsFor_append,
        hmidEv, hend, hcl2, hsnapNo]
    simp
  · have hne2 : (cleanupState { flushPending (procLoop cfg (c1StartState st) mid).state with
        currentMessageId := Option.none }).1.runMessages.isEmpty = false := by
      rw [hclrun]
      exact upsertMessage_isEmpty _ _
    have hsnap : snapshotEvents cfg (cleanupState
        { flushPending (procLoop cfg (c1StartState st) mid).state with
          currentMessageId := Option.none }).1 =
        [Event.messagesSnapshot cfg.inputMessages
          ((cleanupState { flushPending (procLoop cfg (c1StartState st) mid).state with
              currentMessageId := Option.none }).1.runMessages.map
            (enrichMessage (cleanupState
              { flushPending (procLoop cfg (c1StartState st) mid).state with
                currentMessageId := Option.none }).1.toolNameById))] := by
      unfold snapshotEvents
      simp [hne2]
    refine ⟨(cleanupState { flushPending (procLoop cfg (c1StartState st) mid).state with
        currentMessageId := Option.none }).1.runMessages.map
          (enrichMessage (cleanupState
            { flushPending (procLoop cfg (c1StartState st) mid).state with
              currentMessageId := Option.none }).1.toolNameById),
      (if q.toolCalls = [] then Option.none else Option.some q.toolCalls), ?_, ?_⟩
    · rw [hout, hstate]
      refine List.mem_append.mpr (Or.inr ?_)
      rw [hsnap]
      exact List.mem_singleton.mpr rfl
    · rw [hclrun]
      exact List.mem_map.mpr
        ⟨AwMessage.assistant (Ident.fresh 0)
            (Option.some (concatAll (deltasOf mid)))
            (if q.toolCalls = [] then Option.none else Option.some q.toolCalls),
         upsertMessage_self_mem _ _, rfl⟩

/-- C1: on the concrete scenario (input one user message `hi`; vendor
stream message_start, text_delta "Hi", text_delta " there", message_stop)
the translator emits exactly text-message-start, the two content events,
text-message-end and a final messages snapshot whose new assistant
message has content "Hi there"; and in general, for any vendor stream
that opens a text message and later sends message_stop, with arbitrary
well-formed chunk events in between that include at least one non-empty
text delta, exactly one text-message-start and one text-message-end are
emitted for that message with content events between them whose
concatenated deltas equal the accumulated message text, which is also
the text of the new assistant message in the final snapshot. -/
theorem c1_text_message_lifecycle :
    ((translateStream cfgT (initTransState Option.none) streamHi Option.none).events =
      [Event.textStart (Ident.fresh 0) "assistant",
       Event.textContent (Ident.fresh 0) "Hi",
       Event.textContent (Ident.fresh 0) " there",
       Event.textEnd (Ident.fresh 0),
       Event.messagesSnapshot [⟨"user", InContent.str "hi"⟩]
         [AwMessage.assistant (Ident.fresh 0) (Option.some "Hi there") Option.none]])
    ∧ ∀ (st : Option Json) (cfg : Config) (mid : List SdkMsg) (err : Option String),
        (∀ x ∈ mid, isStreamMid cfg x = true) →
        deltasOf mid ≠ [] →
        (eventsFor (Ident.fresh 0) (translateStream cfg (initTransState st)
            (SdkMsg.streamEvent StreamEv.messageStart ::
              (mid ++ [SdkMsg.streamEvent StreamEv.messageStop])) err).events =
          Event.textStart (Ident.fresh 0) "assistant" ::
            ((deltasOf mid).map (fun t => Event.textContent (Ident.fresh 0) t)
              ++ [Event.textEnd (Ident.fresh 0)]))
        ∧ ∃ msgs tcs,
            Event.messagesSnapshot cfg.inputMessages msgs ∈
              (translateStream cfg (initTransState st)
                (SdkMsg.streamEvent StreamEv.messageStart ::
                  (mid ++ [SdkMsg.streamEvent StreamEv.messageStop])) err).events
            ∧ AwMessage.assistant (Ident.fresh 0)
                (Option.some (concatAll (deltasOf mid))) tcs ∈ msgs :=
  ⟨rfl, fun st cfg mid err hall hne => c1_general_aux st cfg mid err hall hne⟩

/-- Witness for C1: the general statement applied to the concrete
mid-stream consisting of the two deltas "Hi" and " there". -/
theorem c1_witness :
    (∀ x ∈ [SdkMsg.streamEvent (StreamEv.textDelta "Hi"),
            SdkMsg.streamEvent (StreamEv.textDelta " there")], isStreamMid cfgT x = true)
    ∧ deltasOf [SdkMsg.streamEvent (StreamEv.textDelta "Hi"),
                SdkMsg.streamEvent (StreamEv.textDelta " there")] ≠ []
    ∧ (eventsFor (Ident.fresh 0) (translateStream cfgT (initTransState Option.none)
          (SdkMsg.streamEvent StreamEv.messageStart ::
            ([SdkMsg.streamEvent (StreamEv.textDelta "Hi"),
              SdkMsg.streamEvent (StreamEv.textDelta " there")]
              ++ [SdkMsg.streamEvent StreamEv.messageStop])) Option.none).events =
        Event.textStart (Ident.fresh 0) "assistant" ::
          ((deltasOf [SdkMsg.streamEvent (StreamEv.textDelta "Hi"),
                      SdkMsg.streamEvent (StreamEv.textDelta " there")]).map
              (fun t => Event.textContent (Ident.fresh 0) t)
            ++ [Event.textEnd (Ident.fresh 0)])) :=
  ⟨by decide, by decide,
   (c1_text_message_lifecycle.2 Option.none cfgT
      [SdkMsg.streamEvent (StreamEv.textDelta "Hi"),
       SdkMsg.streamEvent (StreamEv.textDelta " there")] Option.none
      (by decide) (by decide)).1⟩
